import Mathlib

/-!
Verification of the NanoTrans global hotkey and key-event interception
subsystem. The definitions below are shallow embeddings of the Rust
sources in src/hotkey.rs, src/input.rs, src/caret.rs and src/main.rs:
pure functions become Lean functions, the process-wide atomics and
mutex-protected cells become explicit state records, and the OS calls
(scan-code lookup, key-name query, key-pressed snapshot, platform
registration) become explicit oracle parameters.
-/

namespace NanoTrans

/-- Decidable equality for `Except`, used to settle concrete runs of the
embedded fallible functions by `decide`. -/
instance {ε α : Type} [DecidableEq ε] [DecidableEq α] : DecidableEq (Except ε α)
  | .ok a, .ok b =>
    if h : a = b then .isTrue (by rw [h])
    else .isFalse (by intro he; cases he; exact h rfl)
  | .ok _, .error _ => .isFalse (by intro h; cases h)
  | .error _, .ok _ => .isFalse (by intro h; cases h)
  | .error e, .error f =>
    if h : e = f then .isTrue (by rw [h])
    else .isFalse (by intro he; cases he; exact h rfl)

/-- ASCII lowercase of one character, modelling Rust `to_lowercase` on the
ASCII alphabet used by the key tables. -/
def asciiLowerChar (c : Char) : Char :=
  if 'A' ≤ c ∧ c ≤ 'Z' then Char.ofNat (c.toNat + 32) else c

/-- ASCII uppercase of one character (used for hex rendering). -/
def asciiUpperChar (c : Char) : Char :=
  if 'a' ≤ c ∧ c ≤ 'z' then Char.ofNat (c.toNat - 32) else c

/-- ASCII lowercase of a string. -/
def asciiLower (s : String) : String := String.mk (s.data.map asciiLowerChar)

/-- Whitespace trim on both ends of a character list, modelling Rust
`str::trim` on the ASCII inputs used here. -/
def trimChars (cs : List Char) : List Char :=
  ((cs.dropWhile Char.isWhitespace).reverse.dropWhile Char.isWhitespace).reverse

/-- Split a character list at every plus sign, modelling Rust
`str::split` with separator `+`: the empty string yields one empty
token, and a trailing separator yields a trailing empty token. -/
def splitPlus (cs : List Char) : List (List Char) :=
  cs.foldr
    (fun c acc =>
      if c = '+' then [] :: acc
      else
        match acc with
        | [] => [[c]]
        | g :: gs => (c :: g) :: gs)
    [[]]

/-- Tokenize a mnemonic string: split on plus signs and trim each part,
as both Rust parsers do. -/
def tokenize (s : String) : List String :=
  (splitPlus s.data).map (fun cs => String.mk (trimChars cs))

/-- Does the first character list lead the second one. -/
def charsLead : List Char → List Char → Bool
  | [], _ => true
  | _ :: _, [] => false
  | a :: as, b :: bs => a == b && charsLead as bs

/-- Boolean string prefix test on the underlying character lists. -/
def strStartsWith (p s : String) : Bool := charsLead p.data s.data

/-! ### The mnemonic parser of src/hotkey.rs (`parse_hotkey`) -/

/-- Modifier set of the global-hotkey crate, as four flags. -/
structure Modifiers where
  control : Bool := false
  alt : Bool := false
  shift : Bool := false
  meta : Bool := false
deriving DecidableEq, Repr

/-- Emptiness test on a modifier set, modelling `Modifiers::is_empty`. -/
def Modifiers.isEmpty (m : Modifiers) : Bool :=
  !(m.control || m.alt || m.shift || m.meta)

/-- A parsed hotkey: a modifier set plus one key code. Key codes are
represented by the name of the crate `Code` variant, e.g. `KeyA`. -/
structure HotKey where
  mods : Modifiers
  code : String
deriving DecidableEq, Repr

/-- The closed key-code table of `parse_key_code` in src/hotkey.rs.
Fails with the same `Unknown key` message as the Rust code, whose
payload is the argument as received (the caller passes it lowercased). -/
def parse_key_code (key : String) : Except String String :=
  match asciiLower key with
  | "a" => .ok "KeyA"
  | "b" => .ok "KeyB"
  | "c" => .ok "KeyC"
  | "d" => .ok "KeyD"
  | "e" => .ok "KeyE"
  | "f" => .ok "KeyF"
  | "g" => .ok "KeyG"
  | "h" => .ok "KeyH"
  | "i" => .ok "KeyI"
  | "j" => .ok "KeyJ"
  | "k" => .ok "KeyK"
  | "l" => .ok "KeyL"
  | "m" => .ok "KeyM"
  | "n" => .ok "KeyN"
  | "o" => .ok "KeyO"
  | "p" => .ok "KeyP"
  | "q" => .ok "KeyQ"
  | "r" => .ok "KeyR"
  | "s" => .ok "KeyS"
  | "t" => .ok "KeyT"
  | "u" => .ok "KeyU"
  | "v" => .ok "KeyV"
  | "w" => .ok "KeyW"
  | "x" => .ok "KeyX"
  | "y" => .ok "KeyY"
  | "z" => .ok "KeyZ"
  | "0" => .ok "Digit0"
  | "1" => .ok "Digit1"
  | "2" => .ok "Digit2"
  | "3" => .ok "Digit3"
  | "4" => .ok "Digit4"
  | "5" => .ok "Digit5"
  | "6" => .ok "Digit6"
  | "7" => .ok "Digit7"
  | "8" => .ok "Digit8"
  | "9" => .ok "Digit9"
  | "f1" => .ok "F1"
  | "f2" => .ok "F2"
  | "f3" => .ok "F3"
  | "f4" => .ok "F4"
  | "f5" => .ok "F5"
  | "f6" => .ok "F6"
  | "f7" => .ok "F7"
  | "f8" => .ok "F8"
  | "f9" => .ok "F9"
  | "f10" => .ok "F10"
  | "f11" => .ok "F11"
  | "f12" => .ok "F12"
  | "space" => .ok "Space"
  | "enter" => .ok "Enter"
  | "return" => .ok "Enter"
  | "tab" => .ok "Tab"
  | "escape" => .ok "Escape"
  | "esc" => .ok "Escape"
  | "backspace" => .ok "Backspace"
  | "delete" => .ok "Delete"
  | "del" => .ok "Delete"
  | "insert" => .ok "Insert"
  | "ins" => .ok "Insert"
  | "home" => .ok "Home"
  | "end" => .ok "End"
  | "pageup" => .ok "PageUp"
  | "pgup" => .ok "PageUp"
  | "pagedown" => .ok "PageDown"
  | "pgdn" => .ok "PageDown"
  | "up" => .ok "ArrowUp"
  | "down" => .ok "ArrowDown"
  | "left" => .ok "ArrowLeft"
  | "right" => .ok "ArrowRight"
  | _ => .error ("Unknown key: " ++ key)

/-- The token loop of `parse_hotkey`: modifier synonyms set flags, any
other token is resolved through `parse_key_code` and overwrites the
previously seen key code. -/
def parseHotkeyLoop : List String → Modifiers → Option String →
    Except String (Modifiers × Option String)
  | [], m, k => .ok (m, k)
  | t :: ps, m, k =>
    let l := asciiLower t
    if l = "ctrl" ∨ l = "control" then
      parseHotkeyLoop ps { m with control := true } k
    else if l = "alt" ∨ l = "option" ∨ l = "opt" then
      parseHotkeyLoop ps { m with alt := true } k
    else if l = "shift" then
      parseHotkeyLoop ps { m with shift := true } k
    else if l = "win" ∨ l = "super" ∨ l = "meta" ∨ l = "cmd" ∨ l = "command" then
      parseHotkeyLoop ps { m with meta := true } k
    else
      match parse_key_code l with
      | .error e => .error e
      | .ok c => parseHotkeyLoop ps m (some c)

/-- Shallow embedding of `parse_hotkey` in src/hotkey.rs: split on plus
signs, trim, fold the tokens, then require a nonempty modifier set and a
key code. The `Empty hotkey string` branch mirrors the unreachable Rust
check on an empty split result. -/
def parse_hotkey (s : String) : Except String HotKey :=
  let parts := tokenize s
  if parts.isEmpty then .error "Empty hotkey string"
  else
    match parseHotkeyLoop parts {} none with
    | .error e => .error e
    | .ok (m, k) =>
      if m.isEmpty then .error "Hotkey must include at least one modifier"
      else
        match k with
        | none => .error "No key specified in hotkey"
        | some c => .ok ⟨m, c⟩

/-! ### The mnemonic normalizer of src/input.rs (`normalize_hotkey_string`) -/

/-- The closed key-name table of `normalize_key_name` in src/input.rs
(macOS). Note this table has no `insert` entry and no `win` synonyms. -/
def normalize_key_name (key : String) : Option String :=
  match asciiLower key with
  | "a" => some "A"
  | "b" => some "B"
  | "c" => some "C"
  | "d" => some "D"
  | "e" => some "E"
  | "f" => some "F"
  | "g" => some "G"
  | "h" => some "H"
  | "i" => some "I"
  | "j" => some "J"
  | "k" => some "K"
  | "l" => some "L"
  | "m" => some "M"
  | "n" => some "N"
  | "o" => some "O"
  | "p" => some "P"
  | "q" => some "Q"
  | "r" => some "R"
  | "s" => some "S"
  | "t" => some "T"
  | "u" => some "U"
  | "v" => some "V"
  | "w" => some "W"
  | "x" => some "X"
  | "y" => some "Y"
  | "z" => some "Z"
  | "0" => some "0"
  | "1" => some "1"
  | "2" => some "2"
  | "3" => some "3"
  | "4" => some "4"
  | "5" => some "5"
  | "6" => some "6"
  | "7" => some "7"
  | "8" => some "8"
  | "9" => some "9"
  | "f1" => some "F1"
  | "f2" => some "F2"
  | "f3" => some "F3"
  | "f4" => some "F4"
  | "f5" => some "F5"
  | "f6" => some "F6"
  | "f7" => some "F7"
  | "f8" => some "F8"
  | "f9" => some "F9"
  | "f10" => some "F10"
  | "f11" => some "F11"
  | "f12" => some "F12"
  | "space" => some "Space"
  | "spacebar" => some "Space"
  | "enter" => some "Enter"
  | "return" => some "Enter"
  | "tab" => some "Tab"
  | "escape" => some "Escape"
  | "esc" => some "Escape"
  | "backspace" => some "Backspace"
  | "delete" => some "Delete"
  | "del" => some "Delete"
  | "home" => some "Home"
  | "end" => some "End"
  | "pageup" => some "PageUp"
  | "pgup" => some "PageUp"
  | "pagedown" => some "PageDown"
  | "pgdn" => some "PageDown"
  | "left" => some "Left"
  | "right" => some "Right"
  | "up" => some "Up"
  | "down" => some "Down"
  | _ => none

/-- Accumulator state of the `normalize_hotkey_string` loop. -/
structure NormSt where
  cmd : Bool := false
  ctrl : Bool := false
  alt : Bool := false
  shift : Bool := false
  key : Option String := none
deriving DecidableEq, Repr

/-- The token loop of `normalize_hotkey_string`: empty parts are
skipped, modifier synonyms set flags, the first other token is resolved
through `normalize_key_name`, a second one is an error. The `Unknown
key` payload is the trimmed token in its original case, as in the Rust
code. -/
def normLoop : List String → NormSt → Except String NormSt
  | [], st => .ok st
  | t :: ps, st =>
    if t = "" then normLoop ps st
    else
      let l := asciiLower t
      if l = "cmd" ∨ l = "command" then normLoop ps { st with cmd := true }
      else if l = "ctrl" ∨ l = "control" then normLoop ps { st with ctrl := true }
      else if l = "alt" ∨ l = "option" ∨ l = "opt" then normLoop ps { st with alt := true }
      else if l = "shift" then normLoop ps { st with shift := true }
      else if st.key.isSome then .error "Hotkey contains multiple main keys"
      else
        match normalize_key_name t with
        | none => .error ("Unknown key: " ++ t)
        | some n => normLoop ps { st with key := some n }

/-- Shallow embedding of `normalize_hotkey_string` in src/input.rs:
requires a main key and at least one modifier, then renders the
canonical string with the flags in the order Cmd, Ctrl, Alt, Shift. -/
def normalize_hotkey_string (s : String) : Except String String :=
  match normLoop (tokenize s) {} with
  | .error e => .error e
  | .ok st =>
    match st.key with
    | none => .error "Hotkey missing main key"
    | some n =>
      if st.cmd || st.ctrl || st.alt || st.shift then
        .ok ((if st.cmd then "Cmd+" else "") ++ (if st.ctrl then "Ctrl+" else "") ++
          (if st.alt then "Alt+" else "") ++ (if st.shift then "Shift+" else "") ++ n)
      else .error "Hotkey must include at least one modifier"

/-! ### Popup placement, src/caret.rs (`calculate_popup_position`)

The Rust function reads the screen size from the OS; here the screen
size is an explicit argument, so the function is pure in all of its
inputs, as the specification describes. Rust `i32` division truncates
toward zero, which is `Int.tdiv`. -/

/-- Shallow embedding of `calculate_popup_position`: center the box on
the cursor, place it above with a 10 pixel gap, fall back to 20 pixels
below the cursor when there is no room above, and clamp to the screen. -/
def calculate_popup_position (screen_width screen_height cursor_x cursor_y
    popup_width popup_height : Int) : Int × Int :=
  let x := cursor_x - Int.tdiv popup_width 2
  let y := cursor_y - popup_height - 10
  let x := if x < 0 then 0 else x
  let x := if x + popup_width > screen_width then screen_width - popup_width else x
  let y := if y < 0 then cursor_y + 20 else y
  let y := if y + popup_height > screen_height then screen_height - popup_height else y
  (x, y)

/-! ### The hotkey manager of src/hotkey.rs (non-macOS `HotkeyManager`)

The platform registration API of the global-hotkey crate becomes an
explicit oracle: `hid` models `HotKey::id`, `regOk` tells whether a
`register` call succeeds, `unregOk` whether an `unregister` call
succeeds. The state keeps the list of platform-registered hotkeys so
that registration safety can be stated, and each operation also returns
the list of platform calls it attempted, in order. -/

/-- One platform call attempted by the manager. -/
inductive PlatCall
  | register (h : HotKey)
  | unregister (h : HotKey)
deriving DecidableEq, Repr

/-- State of the non-macOS `HotkeyManager` plus the platform-side list
of currently registered hotkeys. -/
structure ManagerSt where
  registered : List HotKey
  translate_hotkey : HotKey
  translate_hotkey_id : Nat
  current_hotkey : String
deriving DecidableEq, Repr

/-- Shallow embedding of `HotkeyManager::update_hotkey`: lowercase the
argument and skip when it equals the stored string; otherwise parse,
register the new hotkey first, and only then unregister the old one. A
failing register leaves everything unchanged; a failing unregister
returns the error after the new registration, without updating the
fields, exactly as the early returns in the Rust code do. -/
def update_hotkey (hid : HotKey → Nat) (regOk unregOk : HotKey → Bool)
    (st : ManagerSt) (s : String) : Except String Unit × ManagerSt × List PlatCall :=
  let normalized := asciiLower s
  if normalized = st.current_hotkey then (.ok (), st, [])
  else
    match parse_hotkey s with
    | .error e => (.error e, st, [])
    | .ok newHk =>
      if regOk newHk then
        let st1 := { st with registered := st.registered ++ [newHk] }
        if unregOk st.translate_hotkey then
          (.ok (),
            { st1 with
              registered := st1.registered.erase st.translate_hotkey,
              translate_hotkey := newHk,
              translate_hotkey_id := hid newHk,
              current_hotkey := normalized },
            [.register newHk, .unregister st.translate_hotkey])
        else
          (.error "platform unregistration failed", st1,
            [.register newHk, .unregister st.translate_hotkey])
      else
        (.error "platform registration failed", st, [.register newHk])

/-- Number of register calls in a platform-call trace. -/
def countRegisterCalls (tr : List PlatCall) : Nat :=
  (tr.filter (fun c => match c with | .register _ => true | .unregister _ => false)).length

/-- The consumer of capture results, `apply_captured_hotkey` in
src/main.rs: an empty captured string means cancellation and returns at
once; otherwise the manager is updated, and only on success are the
window field and the saved configuration changed. -/
structure AppSt where
  winHotkey : String
  mgr : ManagerSt
  configHotkey : String
deriving DecidableEq, Repr

/-- Shallow embedding of `apply_captured_hotkey` in src/main.rs. -/
def apply_captured_hotkey (hid : HotKey → Nat) (regOk unregOk : HotKey → Bool)
    (st : AppSt) (hotkey : String) : AppSt :=
  if hotkey = "" then st
  else
    let r := update_hotkey hid regOk unregOk st.mgr hotkey
    match r.1 with
    | .error _ => { st with mgr := r.2.1 }
    | .ok _ => { winHotkey := hotkey, mgr := r.2.1, configHotkey := hotkey }

/-! ### The Windows keyboard hook of src/input.rs

The process-wide atomics (`HOTKEY_CAPTURE_ACTIVE`, the four
`HOTKEY_CAPTURE_*` modifier flags, `CAPTURED_HOTKEY`, `CTRL_PRESSED`,
`CTRL_V_DETECTED`) become the fields of `HookSt`. The OS calls
`MapVirtualKeyW` and `GetKeyNameTextW` become the oracles `sc` and
`osn`: `sc vk` is the scan code, `osn vk` the trimmed key-name text if
any. -/

/-- Message kind of a low-level keyboard hook event: `WM_KEYDOWN` or
`WM_SYSKEYDOWN`, `WM_KEYUP` or `WM_SYSKEYUP`, or any other message. -/
inductive KMsg
  | down
  | up
  | other
deriving DecidableEq, Repr

/-- State shared by the Windows hook, the polling fallback and the
capture accessors. -/
structure HookSt where
  captureActive : Bool
  capCtrl : Bool
  capAlt : Bool
  capShift : Bool
  capWin : Bool
  captured : Option String
  ctrlPressed : Bool
  ctrlV : Bool
deriving DecidableEq, Repr

/-- Virtual-key codes the hook treats as modifiers (`is_modifier_key`
in the Windows module of src/input.rs). -/
def is_modifier_key (vk : Nat) : Bool :=
  vk == 0x10 || vk == 0x11 || vk == 0x12 || vk == 0xA0 || vk == 0xA1 ||
  vk == 0xA2 || vk == 0xA3 || vk == 0xA4 || vk == 0xA5 || vk == 0x5B || vk == 0x5C

/-- The `common_key_name` table of the Windows module. -/
def common_key_name (vk : Nat) : Option String :=
  if vk == 0x41 then some "A" else if vk == 0x42 then some "B"
  else if vk == 0x43 then some "C" else if vk == 0x44 then some "D"
  else if vk == 0x45 then some "E" else if vk == 0x46 then some "F"
  else if vk == 0x47 then some "G" else if vk == 0x48 then some "H"
  else if vk == 0x49 then some "I" else if vk == 0x4A then some "J"
  else if vk == 0x4B then some "K" else if vk == 0x4C then some "L"
  else if vk == 0x4D then some "M" else if vk == 0x4E then some "N"
  else if vk == 0x4F then some "O" else if vk == 0x50 then some "P"
  else if vk == 0x51 then some "Q" else if vk == 0x52 then some "R"
  else if vk == 0x53 then some "S" else if vk == 0x54 then some "T"
  else if vk == 0x55 then some "U" else if vk == 0x56 then some "V"
  else if vk == 0x57 then some "W" else if vk == 0x58 then some "X"
  else if vk == 0x59 then some "Y" else if vk == 0x5A then some "Z"
  else if vk == 0x30 then some "0" else if vk == 0x31 then some "1"
  else if vk == 0x32 then some "2" else if vk == 0x33 then some "3"
  else if vk == 0x34 then some "4" else if vk == 0x35 then some "5"
  else if vk == 0x36 then some "6" else if vk == 0x37 then some "7"
  else if vk == 0x38 then some "8" else if vk == 0x39 then some "9"
  else if vk == 0x70 then some "F1" else if vk == 0x71 then some "F2"
  else if vk == 0x72 then some "F3" else if vk == 0x73 then some "F4"
  else if vk == 0x74 then some "F5" else if vk == 0x75 then some "F6"
  else if vk == 0x76 then some "F7" else if vk == 0x77 then some "F8"
  else if vk == 0x78 then some "F9" else if vk == 0x79 then some "F10"
  else if vk == 0x7A then some "F11" else if vk == 0x7B then some "F12"
  else if vk == 0x20 then some "Space" else if vk == 0x0D then some "Enter"
  else if vk == 0x09 then some "Tab" else if vk == 0x08 then some "Backspace"
  else if vk == 0x2E then some "Delete" else if vk == 0x2D then some "Insert"
  else if vk == 0x24 then some "Home" else if vk == 0x23 then some "End"
  else if vk == 0x21 then some "PageUp" else if vk == 0x22 then some "PageDown"
  else if vk == 0x25 then some "Left" else if vk == 0x26 then some "Up"
  else if vk == 0x27 then some "Right" else if vk == 0x28 then some "Down"
  else none

/-- Uppercase hexadecimal rendering of a virtual-key code with the
minimum width 2 of the Rust format string. -/
def vkHex (vk : Nat) : String :=
  let ds := (Nat.toDigits 16 vk).map asciiUpperChar
  "VK" ++ String.mk (if ds.length < 2 then '0' :: ds else ds)

/-- The `vk_to_name` lookup of the Windows module: first the common
table, then the OS key-name text for the scan code, falling back to a
hex placeholder; a zero scan code yields no name at all. -/
def vk_to_name (sc : Nat → Nat) (osn : Nat → Option String) (vk : Nat) : Option String :=
  match common_key_name vk with
  | some n => some n
  | none =>
    if sc vk = 0 then none
    else
      match osn vk with
      | some n => if n = "" then some (vkHex vk) else some n
      | none => some (vkHex vk)

/-- The modifier-flag update at the head of the capture branch of
`keyboard_hook_proc`: each modifier group stores the key-down flag on a
key-down or key-up message. -/
def updateCapMods (st : HookSt) (vk : Nat) (isDown isUp : Bool) : HookSt :=
  if vk == 0x10 || vk == 0xA0 || vk == 0xA1 then
    if isDown || isUp then { st with capShift := isDown } else st
  else if vk == 0x11 || vk == 0xA2 || vk == 0xA3 then
    if isDown || isUp then { st with capCtrl := isDown } else st
  else if vk == 0x12 || vk == 0xA4 || vk == 0xA5 then
    if isDown || isUp then { st with capAlt := isDown } else st
  else if vk == 0x5B || vk == 0x5C then
    if isDown || isUp then { st with capWin := isDown } else st
  else st

/-- The modifier-mnemonic text built from four flags in the order
Ctrl, Alt, Shift, Win, the concatenation both Windows capture paths
perform. -/
def modsRender (c a s w : Bool) : String :=
  (if c then "Ctrl+" else "") ++ (if a then "Alt+" else "") ++
  (if s then "Shift+" else "") ++ (if w then "Win+" else "")

/-- The modifier-mnemonic text of the hook capture flags. -/
def winModsStr (st : HookSt) : String :=
  modsRender st.capCtrl st.capAlt st.capShift st.capWin

/-- The paste-detection tail of `keyboard_hook_proc`: track the Ctrl
keys in `CTRL_PRESSED` and latch `CTRL_V_DETECTED` on a Ctrl-held V
key-down. Runs on every event that is not consumed by an early return
of the capture branch. -/
def pasteStep (st : HookSt) (vk : Nat) (isDown : Bool) : HookSt :=
  let st := if vk == 0x11 || vk == 0xA2 || vk == 0xA3 then { st with ctrlPressed := isDown } else st
  if isDown && vk == 0x56 then
    if st.ctrlPressed then { st with ctrlV := true } else st
  else st

/-- Shallow embedding of the Windows `keyboard_hook_proc` state effect:
while a capture is active, modifier transitions update the flags, an
Escape key-down cancels (stores the empty string and deactivates), a
Tab key-down is passed through untouched, and any other key-down with a
modifier held and a resolvable name finalizes the capture; the Escape
and finalize branches return early and skip the paste-detection tail. -/
def keyboard_hook_proc (sc : Nat → Nat) (osn : Nat → Option String)
    (st : HookSt) (vk : Nat) (msg : KMsg) : HookSt :=
  let isDown := msg == KMsg.down
  let isUp := msg == KMsg.up
  if st.captureActive then
    let st1 := updateCapMods st vk isDown isUp
    if isDown && vk == 0x1B then
      { st1 with captureActive := false, captured := some "" }
    else if isDown && !is_modifier_key vk then
      if vk == 0x09 then st1
      else if st1.capCtrl || st1.capAlt || st1.capShift || st1.capWin then
        match vk_to_name sc osn vk with
        | some nm => { st1 with captured := some (winModsStr st1 ++ nm), captureActive := false }
        | none => pasteStep st1 vk isDown
      else pasteStep st1 vk isDown
    else pasteStep st1 vk isDown
  else pasteStep st vk isDown

/-! ### The polling fallback of src/input.rs (`poll_hotkey_capture`)

The `GetAsyncKeyState` snapshot becomes the oracle `pressed`. -/

/-- The fixed candidate list `HOTKEY_CANDIDATES` of the Windows module:
digits, letters, F1 to F12, then Space, Enter, Tab, Backspace, Delete,
Insert, Home, End, PageUp, PageDown, Left, Up, Right, Down. -/
def HOTKEY_CANDIDATES : List Nat :=
  [0x30, 0x31, 0x32, 0x33, 0x34, 0x35, 0x36, 0x37, 0x38, 0x39,
   0x41, 0x42, 0x43, 0x44, 0x45, 0x46, 0x47, 0x48, 0x49, 0x4A, 0x4B, 0x4C,
   0x4D, 0x4E, 0x4F, 0x50, 0x51, 0x52, 0x53, 0x54, 0x55, 0x56, 0x57, 0x58,
   0x59, 0x5A,
   0x70, 0x71, 0x72, 0x73, 0x74, 0x75, 0x76, 0x77, 0x78, 0x79, 0x7A, 0x7B,
   0x20, 0x0D, 0x09, 0x08, 0x2E, 0x2D, 0x24, 0x23, 0x21, 0x22, 0x25, 0x26,
   0x27, 0x28]

/-- First pressed non-modifier candidate, following the iteration order
of the Rust loop. -/
def pollFind (pressed : Nat → Bool) : List Nat → Option Nat
  | [] => none
  | vk :: rest =>
    if pressed vk && !is_modifier_key vk then some vk else pollFind pressed rest

/-- Shallow embedding of the Windows `poll_hotkey_capture`: on an
active capture with at least one modifier pressed in the snapshot, the
first pressed candidate key finalizes the capture with the modifier
text computed from the snapshot; the resolved name always exists thanks
to the hex fallback. Returns the polled result together with the new
shared state. -/
def poll_hotkey_capture (sc : Nat → Nat) (osn : Nat → Option String)
    (pressed : Nat → Bool) (st : HookSt) : Option String × HookSt :=
  if !st.captureActive then (none, st)
  else
    let has_ctrl := pressed 0x11 || pressed 0xA2 || pressed 0xA3
    let has_alt := pressed 0x12 || pressed 0xA4 || pressed 0xA5
    let has_shift := pressed 0x10 || pressed 0xA0 || pressed 0xA1
    let has_win := pressed 0x5B || pressed 0x5C
    if !(has_ctrl || has_alt || has_shift || has_win) then (none, st)
    else
      match pollFind pressed HOTKEY_CANDIDATES with
      | none => (none, st)
      | some vk =>
        let name := (vk_to_name sc osn vk).getD (vkHex vk)
        let hotkey := modsRender has_ctrl has_alt has_shift has_win ++ name
        (some hotkey, { st with captureActive := false, captured := some hotkey })

/-! ### The capture session accessors of src/input.rs -/

/-- Shallow embedding of `start_hotkey_capture`: activate the session
and clear any prior result. -/
def start_hotkey_capture (st : HookSt) : HookSt :=
  { st with captureActive := true, captured := none }

/-- Shallow embedding of `stop_hotkey_capture`: deactivate without
touching the stored result. -/
def stop_hotkey_capture (st : HookSt) : HookSt :=
  { st with captureActive := false }

/-- Shallow embedding of `get_captured_hotkey`: take the stored result,
leaving none. -/
def get_captured_hotkey (st : HookSt) : Option String × HookSt :=
  (st.captured, { st with captured := none })

/-! ### The macOS event tap of src/input.rs -/

/-- Modifier flags carried by a macOS key event. -/
structure MacFlags where
  cmd : Bool
  ctrl : Bool
  alt : Bool
  shift : Bool
deriving DecidableEq, Repr

/-- State shared by the macOS event-tap callback and the accessors:
the capture cell, the active-hotkey string, the count of hotkey-fired
channel sends, and the paste latch. -/
structure MacSt where
  captureActive : Bool
  captured : Option String
  activeHotkey : Option String
  firedEvents : Nat
  ctrlV : Bool
deriving DecidableEq, Repr

/-- Keycodes the macOS module treats as modifiers. -/
def mac_is_modifier_key (k : Nat) : Bool :=
  k == 54 || k == 55 || k == 56 || k == 60 || k == 57 ||
  k == 58 || k == 61 || k == 59 || k == 62 || k == 63

/-- The `keycode_to_name` table of the macOS module. -/
def keycode_to_name (k : Nat) : Option String :=
  if k == 0 then some "A" else if k == 1 then some "S"
  else if k == 2 then some "D" else if k == 3 then some "F"
  else if k == 4 then some "H" else if k == 5 then some "G"
  else if k == 6 then some "Z" else if k == 7 then some "X"
  else if k == 8 then some "C" else if k == 9 then some "V"
  else if k == 11 then some "B" else if k == 12 then some "Q"
  else if k == 13 then some "W" else if k == 14 then some "E"
  else if k == 15 then some "R" else if k == 16 then some "Y"
  else if k == 17 then some "T" else if k == 18 then some "1"
  else if k == 19 then some "2" else if k == 20 then some "3"
  else if k == 21 then some "4" else if k == 22 then some "6"
  else if k == 23 then some "5" else if k == 25 then some "9"
  else if k == 26 then some "7" else if k == 28 then some "8"
  else if k == 29 then some "0" else if k == 31 then some "O"
  else if k == 32 then some "U" else if k == 34 then some "I"
  else if k == 35 then some "P" else if k == 36 then some "Enter"
  else if k == 37 then some "L" else if k == 38 then some "J"
  else if k == 40 then some "K" else if k == 45 then some "N"
  else if k == 46 then some "M" else if k == 48 then some "Tab"
  else if k == 49 then some "Space" else if k == 51 then some "Backspace"
  else if k == 53 then some "Escape" else if k == 96 then some "F5"
  else if k == 97 then some "F6" else if k == 98 then some "F7"
  else if k == 99 then some "F3" else if k == 100 then some "F8"
  else if k == 101 then some "F9" else if k == 103 then some "F11"
  else if k == 109 then some "F10" else if k == 111 then some "F12"
  else if k == 115 then some "Home" else if k == 116 then some "PageUp"
  else if k == 117 then some "Delete" else if k == 118 then some "F4"
  else if k == 119 then some "End" else if k == 120 then some "F2"
  else if k == 121 then some "PageDown" else if k == 122 then some "F1"
  else if k == 123 then some "Left" else if k == 124 then some "Right"
  else if k == 125 then some "Down" else if k == 126 then some "Up"
  else none

/-- The modifier-mnemonic text built from macOS event flags, in the
order Cmd, Ctrl, Alt, Shift used by the macOS module. -/
def macModsStr (f : MacFlags) : String :=
  (if f.cmd then "Cmd+" else "") ++ (if f.ctrl then "Ctrl+" else "") ++
  (if f.alt then "Alt+" else "") ++ (if f.shift then "Shift+" else "")

/-- The paste check at the tail of the macOS callback: keycode 9 with
Command or Control held latches the paste flag. -/
def macPaste (st : MacSt) (k : Nat) (f : MacFlags) : MacSt :=
  if k == 9 && (f.cmd || f.ctrl) then { st with ctrlV := true } else st

/-- Shallow embedding of the macOS event-tap callback for a key-down
event: while a capture is active, Escape cancels and returns early; any
non-modifier keycode with a modifier flag and a table name finalizes
(there is no Tab exclusion in this backend). When no capture is active
the event is matched against the active hotkey string and a fired event
is sent on equality. All paths except the Escape return fall through to
the paste check. -/
def mac_event_tap_callback (st : MacSt) (k : Nat) (f : MacFlags) : MacSt :=
  if st.captureActive then
    if k == 53 then { st with captureActive := false, captured := some "" }
    else
      let st1 :=
        if !mac_is_modifier_key k then
          if f.cmd || f.ctrl || f.alt || f.shift then
            match keycode_to_name k with
            | some n =>
              { st with captureActive := false, captured := some (macModsStr f ++ n) }
            | none => st
          else st
        else st
      macPaste st1 k f
  else
    let st1 :=
      match st.activeHotkey with
      | some ah =>
        if !mac_is_modifier_key k && (f.cmd || f.ctrl || f.alt || f.shift) then
          match keycode_to_name k with
          | some n => if macModsStr f ++ n = ah then { st with firedEvents := st.firedEvents + 1 } else st
          | none => st
        else st
      | none => st
    macPaste st1 k f

/-! ### The monitor fault channel of src/input.rs

On macOS `report_keyboard_monitor_error` guards the channel with the
`MONITOR_ERROR_REPORTED` atomic; the Windows monitor thread only writes
a line to the hotkey log when hook installation fails. -/

/-- State of the fault channel: the once-reported flag and the list of
messages sent so far. -/
structure FaultSt where
  reported : Bool
  sent : List String
deriving DecidableEq, Repr

/-- Shallow embedding of `report_keyboard_monitor_error`: the first
call sends its message, every later call returns at once. -/
def report_keyboard_monitor_error (st : FaultSt) (msg : String) : FaultSt :=
  if st.reported then st else { reported := true, sent := st.sent ++ [msg] }

/-- One attempt of the macOS monitor thread to install the event tap:
whether tap creation succeeds, whether the run-loop source succeeds,
and the OS error text used in the message. -/
structure InstallAttempt where
  tapOk : Bool
  sourceOk : Bool
  errText : String
deriving DecidableEq, Repr

/-- Shallow embedding of the failure handling in the macOS
`start_keyboard_monitor`: a failed tap creation or a failed run-loop
source reports through the guarded channel and the thread exits. -/
def mac_monitor_install (st : FaultSt) (a : InstallAttempt) : FaultSt :=
  if a.tapOk = false then
    report_keyboard_monitor_error st ("keyboard monitor failed: " ++ a.errText)
  else if a.sourceOk = false then
    report_keyboard_monitor_error st ("keyboard runloop source failed: " ++ a.errText)
  else st

/-- Does this attempt fail to install the tap. -/
def installFails (a : InstallAttempt) : Bool := !a.tapOk || !a.sourceOk

/-- A whole process lifetime of macOS install attempts, starting from
the fresh fault state. -/
def runMacInstalls (evs : List InstallAttempt) : FaultSt :=
  evs.foldl mac_monitor_install ⟨false, []⟩

/-- Shallow embedding of the Windows `start_keyboard_monitor` failure
handling: a failed `SetWindowsHookExW` only appends a line to the
hotkey log; the fault state is never touched. Returns the fault state
and the log. -/
def win_start_keyboard_monitor (st : FaultSt) (hookOk : Bool) (log : List String) :
    FaultSt × List String :=
  if hookOk then (st, log) else (st, log ++ ["keyboard hook failed"])

/-! ### Shared concrete fixtures for the scenarios below -/

/-- Oracle assigning every hotkey the identifier 0. -/
def hid0 : HotKey → Nat := fun _ => 0

/-- Oracle under which every platform call succeeds. -/
def allOk : HotKey → Bool := fun _ => true

/-- Oracle under which every platform registration fails. -/
def noneOk : HotKey → Bool := fun _ => false

/-- The parsed default hotkey Alt+Q. -/
def hkAltQ : HotKey := ⟨{ alt := true }, "KeyQ"⟩

/-- The parsed hotkey Ctrl+Shift+T. -/
def hkCtrlShiftT : HotKey := ⟨{ control := true, shift := true }, "KeyT"⟩

/-- A manager state holding the registered default binding Alt+Q. -/
def mgr0 : ManagerSt := ⟨[hkAltQ], hkAltQ, 0, "alt+q"⟩

/-- The platform-call trace of updating the binding with
`Ctrl+Shift+T` and then with `Shift+Ctrl+T`, starting from the
registered default Alt+Q, with every platform call succeeding. -/
def c5trace : List PlatCall :=
  (update_hotkey hid0 allOk allOk mgr0 "Ctrl+Shift+T").2.2 ++
  (update_hotkey hid0 allOk allOk
    (update_hotkey hid0 allOk allOk mgr0 "Ctrl+Shift+T").2.1 "Shift+Ctrl+T").2.2

/-- A scan-code oracle mapping every key to 1. -/
def sc1 : Nat → Nat := fun _ => 1

/-- A key-name oracle that never resolves (the common table then
decides every name). -/
def osnN : Nat → Option String := fun _ => none

/-- A hook state with an active capture session and Ctrl held. -/
def hsCtrl : HookSt := ⟨true, true, false, false, false, none, false, false⟩

/-- A macOS state with an active capture session. -/
def macCapSt : MacSt := ⟨true, none, none, 0, false⟩

/-- A key-pressed snapshot holding Ctrl and Tab down. -/
def prCtrlTab : Nat → Bool := fun vk => vk == 0x11 || vk == 0x09

/-- A key-pressed snapshot holding Ctrl and Escape down. -/
def prCtrlEsc : Nat → Bool := fun vk => vk == 0x11 || vk == 0x1B

/-- A key-pressed snapshot holding Ctrl and Q down. -/
def prCtrlQ : Nat → Bool := fun vk => vk == 0x11 || vk == 0x51

/-- Mnemonics stored by a finalized capture always start with one of
the five modifier texts. -/
def ModPrefixed (s : String) : Bool :=
  strStartsWith "Ctrl+" s || strStartsWith "Alt+" s || strStartsWith "Shift+" s ||
  strStartsWith "Win+" s || strStartsWith "Cmd+" s

/-- A stored capture outcome respects the delivery protocol: absent, or
the empty cancellation marker, or a nonempty modifier-led mnemonic. -/
def GoodOutcome (o : Option String) : Prop :=
  ∀ s, o = some s → s = "" ∨ (s ≠ "" ∧ ModPrefixed s = true)

/-- The held-modifier flags of a hook state agree with a key-pressed
snapshot, group by group, as the poll fallback reads them. -/
def bitsMatch (st : HookSt) (pressed : Nat → Bool) : Prop :=
  st.capCtrl = (pressed 0x11 || pressed 0xA2 || pressed 0xA3) ∧
  st.capAlt = (pressed 0x12 || pressed 0xA4 || pressed 0xA5) ∧
  st.capShift = (pressed 0x10 || pressed 0xA0 || pressed 0xA1) ∧
  st.capWin = (pressed 0x5B || pressed 0x5C)

/-- Is some modifier key down in a snapshot, grouped exactly as the
poll guard computes it. -/
def anyModPressed (pressed : Nat → Bool) : Bool :=
  (pressed 0x11 || pressed 0xA2 || pressed 0xA3) ||
  (pressed 0x12 || pressed 0xA4 || pressed 0xA5) ||
  (pressed 0x10 || pressed 0xA0 || pressed 0xA1) ||
  (pressed 0x5B || pressed 0x5C)

/-- Does the lowered token equal one of the given names. -/
def tokIn (l : String) : List String → Bool
  | [] => false
  | n :: ns => l == n || tokIn l ns

/-- Does some token of the list lower to one of the given names. -/
def hasTok (ns : List String) : List String → Bool
  | [] => false
  | t :: ps => tokIn (asciiLower t) ns || hasTok ns ps

/-- Is this trimmed token one of the modifier synonyms recognized by
the macOS normalizer. -/
def isMacModTok (t : String) : Bool :=
  tokIn (asciiLower t) ["cmd", "command", "ctrl", "control", "alt", "option", "opt", "shift"]

/-- The key tokens of a token list: nonempty tokens that are no
modifier synonyms, in order. -/
def macKeyToks : List String → List String
  | [] => []
  | t :: ps => if t = "" ∨ isMacModTok t = true then macKeyToks ps else t :: macKeyToks ps

/-- The loop state the normalizer reaches after consuming a token
list: each modifier flag is the old flag or the presence of one of its
synonyms, and the key is as given. -/
def mergeSt (st : NormSt) (ps : List String) (key : Option String) : NormSt :=
  { cmd := st.cmd || hasTok ["cmd", "command"] ps
    ctrl := st.ctrl || hasTok ["ctrl", "control"] ps
    alt := st.alt || hasTok ["alt", "option", "opt"] ps
    shift := st.shift || hasTok ["shift"] ps
    key := key }

/-! ## Helper lemmas -/

/-- A character list leads its own append. -/
theorem charsLead_append_self (l m : List Char) : charsLead l (l ++ m) = true := by
  induction l with
  | nil => rfl
  | cons c l ih => simp [charsLead, ih]

/-- String concatenation is associative. -/
theorem str_append_assoc (a b c : String) : (a ++ b) ++ c = a ++ (b ++ c) :=
  congrArg String.mk (List.append_assoc a.data b.data c.data)

/-- A string starts with itself followed by anything. -/
theorem strStartsWith_append_self (p r : String) : strStartsWith p (p ++ r) = true := by
  show charsLead p.data (p.data ++ r.data) = true
  exact charsLead_append_self _ _

/-- A string led by a nonempty literal is nonempty. -/
theorem append_ne_empty_of_ne (p r : String) (h : p.data ≠ []) : p ++ r ≠ "" := by
  intro he
  have h2 : (p ++ r).data = [] := by rw [he]
  have h3 : (p ++ r).data = p.data ++ r.data := rfl
  rw [h3] at h2
  rcases hd : p.data with _ | ⟨c, cs⟩
  · exact h hd
  · rw [hd] at h2
    simp at h2

/-- A string starting with one nonempty append layer. -/
theorem strStartsWith_expand1 (p q r : String) :
    strStartsWith p ((p ++ q) ++ r) = true := by
  rw [str_append_assoc]
  exact strStartsWith_append_self _ _

/-- A string starting with two nonempty append layers. -/
theorem strStartsWith_expand2 (p q1 q2 r : String) :
    strStartsWith p (((p ++ q1) ++ q2) ++ r) = true := by
  rw [str_append_assoc, str_append_assoc]
  exact strStartsWith_append_self _ _

/-- A string starting with three nonempty append layers. -/
theorem strStartsWith_expand3 (p q1 q2 q3 r : String) :
    strStartsWith p ((((p ++ q1) ++ q2) ++ q3) ++ r) = true := by
  rw [str_append_assoc, str_append_assoc, str_append_assoc]
  exact strStartsWith_append_self _ _

/-- A modifier-led mnemonic is nonempty. -/
theorem modPrefixed_ne_empty (s : String) (h : ModPrefixed s = true) : s ≠ "" := by
  intro he
  subst he
  exact absurd h (by decide)

/-- The modifier text of at least one set flag yields a nonempty,
modifier-led mnemonic whatever key name follows. -/
theorem modsRender_prefixed (c a s w : Bool) (nm : String)
    (h : (c || a || s || w) = true) :
    modsRender c a s w ++ nm ≠ "" ∧ ModPrefixed (modsRender c a s w ++ nm) = true := by
  have hmp : ModPrefixed (modsRender c a s w ++ nm) = true := by
    rcases c with _ | _
    · rcases a with _ | _
      · rcases s with _ | _
        · rcases w with _ | _
          · simp at h
          · have he : modsRender false false false true = "Win+" := rfl
            rw [he]
            simp [ModPrefixed, strStartsWith_append_self]
        · have he : modsRender false false true w =
              "Shift+" ++ (if w then "Win+" else "") := rfl
          rw [he, str_append_assoc]
          simp [ModPrefixed, strStartsWith_append_self]
      · have he : modsRender false true s w =
            ("Alt+" ++ (if s then "Shift+" else "")) ++ (if w then "Win+" else "") := rfl
        rw [he]
        simp [ModPrefixed, strStartsWith_expand2]
    · have he : modsRender true a s w =
          (("Ctrl+" ++ (if a then "Alt+" else "")) ++ (if s then "Shift+" else "")) ++
            (if w then "Win+" else "") := rfl
      rw [he]
      simp [ModPrefixed, strStartsWith_expand3]
  exact ⟨modPrefixed_ne_empty _ hmp, hmp⟩

/-- The macOS modifier text of at least one set flag yields a nonempty,
modifier-led mnemonic whatever key name follows. -/
theorem macModsStr_prefixed (f : MacFlags) (nm : String)
    (h : (f.cmd || f.ctrl || f.alt || f.shift) = true) :
    macModsStr f ++ nm ≠ "" ∧ ModPrefixed (macModsStr f ++ nm) = true := by
  obtain ⟨c, ct, a, s⟩ := f
  have hmp : ModPrefixed (macModsStr ⟨c, ct, a, s⟩ ++ nm) = true := by
    rcases c with _ | _
    · rcases ct with _ | _
      · rcases a with _ | _
        · rcases s with _ | _
          · simp at h
          · have he : macModsStr ⟨false, false, false, true⟩ = "Shift+" := rfl
            rw [he]
            simp [ModPrefixed, strStartsWith_append_self]
        · have he : macModsStr ⟨false, false, true, s⟩ =
              "Alt+" ++ (if s then "Shift+" else "") := rfl
          rw [he, str_append_assoc]
          simp [ModPrefixed, strStartsWith_append_self]
      · have he : macModsStr ⟨false, true, a, s⟩ =
            ("Ctrl+" ++ (if a then "Alt+" else "")) ++ (if s then "Shift+" else "") := rfl
        rw [he]
        simp [ModPrefixed, strStartsWith_expand2]
    · have he : macModsStr ⟨true, ct, a, s⟩ =
          (("Cmd+" ++ (if ct then "Ctrl+" else "")) ++ (if a then "Alt+" else "")) ++
            (if s then "Shift+" else "") := rfl
      rw [he]
      simp [ModPrefixed, strStartsWith_expand3]
  exact ⟨modPrefixed_ne_empty _ hmp, hmp⟩

/-- The paste-detection tail never touches the capture fields. -/
@[simp] theorem pasteStep_captureActive (st : HookSt) (vk : Nat) (d : Bool) :
    (pasteStep st vk d).captureActive = st.captureActive := by
  unfold pasteStep
  dsimp only
  split_ifs <;> rfl

/-- The paste-detection tail never touches the stored outcome. -/
@[simp] theorem pasteStep_captured (st : HookSt) (vk : Nat) (d : Bool) :
    (pasteStep st vk d).captured = st.captured := by
  unfold pasteStep
  dsimp only
  split_ifs <;> rfl

/-- The paste-detection tail never touches the Ctrl capture flag. -/
@[simp] theorem pasteStep_capCtrl (st : HookSt) (vk : Nat) (d : Bool) :
    (pasteStep st vk d).capCtrl = st.capCtrl := by
  unfold pasteStep
  dsimp only
  split_ifs <;> rfl

/-- The paste-detection tail never touches the Alt capture flag. -/
@[simp] theorem pasteStep_capAlt (st : HookSt) (vk : Nat) (d : Bool) :
    (pasteStep st vk d).capAlt = st.capAlt := by
  unfold pasteStep
  dsimp only
  split_ifs <;> rfl

/-- The paste-detection tail never touches the Shift capture flag. -/
@[simp] theorem pasteStep_capShift (st : HookSt) (vk : Nat) (d : Bool) :
    (pasteStep st vk d).capShift = st.capShift := by
  unfold pasteStep
  dsimp only
  split_ifs <;> rfl

/-- The paste-detection tail never touches the Win capture flag. -/
@[simp] theorem pasteStep_capWin (st : HookSt) (vk : Nat) (d : Bool) :
    (pasteStep st vk d).capWin = st.capWin := by
  unfold pasteStep
  dsimp only
  split_ifs <;> rfl

/-- The modifier-flag update never touches the active flag. -/
@[simp] theorem updateCapMods_captureActive (st : HookSt) (vk : Nat) (d u : Bool) :
    (updateCapMods st vk d u).captureActive = st.captureActive := by
  unfold updateCapMods
  split_ifs <;> rfl

/-- The modifier-flag update never touches the stored outcome. -/
@[simp] theorem updateCapMods_captured (st : HookSt) (vk : Nat) (d u : Bool) :
    (updateCapMods st vk d u).captured = st.captured := by
  unfold updateCapMods
  split_ifs <;> rfl

/-- The modifier-flag update of a non-modifier key does nothing. -/
theorem updateCapMods_nonmod (st : HookSt) (vk : Nat) (d u : Bool)
    (h : is_modifier_key vk = false) : updateCapMods st vk d u = st := by
  simp only [is_modifier_key, Bool.or_eq_false_iff, beq_eq_false_iff_ne, ne_eq] at h
  obtain ⟨⟨⟨⟨⟨⟨⟨⟨⟨⟨h10, h11⟩, h12⟩, hA0⟩, hA1⟩, hA2⟩, hA3⟩, hA4⟩, hA5⟩, h5B⟩, h5C⟩ := h
  simp [updateCapMods, h10, h11, h12, hA0, hA1, hA2, hA3, hA4, hA5, h5B, h5C]

/-- The macOS paste check never touches the capture fields. -/
@[simp] theorem macPaste_captureActive (st : MacSt) (k : Nat) (f : MacFlags) :
    (macPaste st k f).captureActive = st.captureActive := by
  unfold macPaste
  split_ifs <;> rfl

/-- The macOS paste check never touches the stored outcome. -/
@[simp] theorem macPaste_captured (st : MacSt) (k : Nat) (f : MacFlags) :
    (macPaste st k f).captured = st.captured := by
  unfold macPaste
  split_ifs <;> rfl

/-- Every hook invocation either leaves the stored outcome and the
active flag unchanged, or it finalizes: the session was active, the
step deactivates it, and the new outcome is the empty cancellation
marker or a nonempty modifier-led mnemonic. -/
theorem hook_outcome (sc : Nat → Nat) (osn : Nat → Option String)
    (st : HookSt) (vk : Nat) (msg : KMsg) :
    ((keyboard_hook_proc sc osn st vk msg).captured = st.captured ∧
     (keyboard_hook_proc sc osn st vk msg).captureActive = st.captureActive) ∨
    (st.captureActive = true ∧
     (keyboard_hook_proc sc osn st vk msg).captureActive = false ∧
     ((keyboard_hook_proc sc osn st vk msg).captured = some "" ∨
      ∃ s, (keyboard_hook_proc sc osn st vk msg).captured = some s ∧
        s ≠ "" ∧ ModPrefixed s = true)) := by
  unfold keyboard_hook_proc
  by_cases hA : st.captureActive = true
  · simp only [hA, if_true]
    rcases hv : vk_to_name sc osn vk with _ | nm
    · split_ifs <;> simp [hA]
    · split_ifs with h1 h2 h3 h4
      · right
        exact ⟨by simp [hA], by simp, Or.inl (by simp)⟩
      · left
        simp [hA]
      · right
        refine ⟨by simp [hA], by simp, Or.inr ?_⟩
        obtain ⟨hne, hmp⟩ := modsRender_prefixed _ _ _ _ nm h4
        exact ⟨winModsStr (updateCapMods st vk (msg == KMsg.down) (msg == KMsg.up)) ++ nm,
          by simp, hne, hmp⟩
      · left
        simp [hA]
      · left
        simp [hA]
  · simp only [Bool.not_eq_true] at hA
    simp [hA]

/-- Every macOS callback invocation either leaves the stored outcome
and the active flag unchanged, or it finalizes as for the hook. -/
theorem mac_outcome (st : MacSt) (k : Nat) (f : MacFlags) :
    ((mac_event_tap_callback st k f).captured = st.captured ∧
     (mac_event_tap_callback st k f).captureActive = st.captureActive) ∨
    (st.captureActive = true ∧
     (mac_event_tap_callback st k f).captureActive = false ∧
     ((mac_event_tap_callback st k f).captured = some "" ∨
      ∃ s, (mac_event_tap_callback st k f).captured = some s ∧
        s ≠ "" ∧ ModPrefixed s = true)) := by
  unfold mac_event_tap_callback
  by_cases hA : st.captureActive = true
  · simp only [hA, if_true]
    rcases hn : keycode_to_name k with _ | nm
    · split_ifs <;> simp [hA]
    · split_ifs with h1 h2 h3
      · right
        exact ⟨by simp [hA], by simp, Or.inl (by simp)⟩
      · right
        refine ⟨by simp [hA], by simp, Or.inr ?_⟩
        obtain ⟨hne, hmp⟩ := macModsStr_prefixed f nm h3
        exact ⟨macModsStr f ++ nm, by simp, hne, hmp⟩
      · left
        simp [hA]
      · left
        simp [hA]
  · simp only [Bool.not_eq_true] at hA
    left
    simp only [hA, Bool.false_eq_true, if_false]
    rcases hah : st.activeHotkey with _ | ah
    · simp [hA]
    · split_ifs with h1
      · rcases hn : keycode_to_name k with _ | nm
        · simp [hn, hA]
        · simp only [hn]
          split_ifs with h2 <;> simp [hA]
      · simp [hA]

/-- Every poll invocation either returns nothing and leaves the state
unchanged, or it finalizes a nonempty modifier-led mnemonic, storing it
and deactivating the session; it never produces the cancellation
marker. -/
theorem poll_outcome (sc : Nat → Nat) (osn : Nat → Option String)
    (pressed : Nat → Bool) (st : HookSt) :
    ((poll_hotkey_capture sc osn pressed st).1 = none ∧
     (poll_hotkey_capture sc osn pressed st).2 = st) ∨
    (st.captureActive = true ∧
     (poll_hotkey_capture sc osn pressed st).2.captureActive = false ∧
     ∃ s, (poll_hotkey_capture sc osn pressed st).1 = some s ∧
       (poll_hotkey_capture sc osn pressed st).2.captured = some s ∧
       s ≠ "" ∧ ModPrefixed s = true) := by
  unfold poll_hotkey_capture
  by_cases hA : st.captureActive = true
  · simp only [hA, Bool.not_true, Bool.false_eq_true, if_false]
    by_cases hM : (pressed 0x11 || pressed 0xA2 || pressed 0xA3 ||
        (pressed 0x12 || pressed 0xA4 || pressed 0xA5) ||
        (pressed 0x10 || pressed 0xA0 || pressed 0xA1) ||
        (pressed 0x5B || pressed 0x5C)) = true
    · simp only [hM, Bool.not_true, Bool.false_eq_true, if_false]
      rcases hf : pollFind pressed HOTKEY_CANDIDATES with _ | vk
      · left
        exact ⟨rfl, rfl⟩
      · right
        refine ⟨by simp [hA], by simp, ?_⟩
        obtain ⟨hne, hmp⟩ := modsRender_prefixed
          (pressed 0x11 || pressed 0xA2 || pressed 0xA3)
          (pressed 0x12 || pressed 0xA4 || pressed 0xA5)
          (pressed 0x10 || pressed 0xA0 || pressed 0xA1)
          (pressed 0x5B || pressed 0x5C)
          ((vk_to_name sc osn vk).getD (vkHex vk)) hM
        exact ⟨_, rfl, by simp, hne, hmp⟩
    · simp only [Bool.not_eq_true] at hM
      simp [hM]
  · simp only [Bool.not_eq_true] at hA
    simp [hA]

/-- Escape key-down during an active capture cancels: the hook stores
the empty string and deactivates in the same invocation, whatever
modifiers are held. -/
theorem hook_escape_eq (sc : Nat → Nat) (osn : Nat → Option String) (st : HookSt)
    (h : st.captureActive = true) :
    keyboard_hook_proc sc osn st 0x1B KMsg.down =
      { st with captureActive := false, captured := some "" } := by
  unfold keyboard_hook_proc
  dsimp only
  rw [updateCapMods_nonmod st 0x1B (KMsg.down == KMsg.down) (KMsg.down == KMsg.up) (by decide)]
  simp [h]

/-- A Tab event never changes the stored outcome or the active flag. -/
theorem hook_tab_keeps (sc : Nat → Nat) (osn : Nat → Option String) (st : HookSt)
    (msg : KMsg) :
    (keyboard_hook_proc sc osn st 0x09 msg).captured = st.captured ∧
    (keyboard_hook_proc sc osn st 0x09 msg).captureActive = st.captureActive := by
  unfold keyboard_hook_proc
  by_cases hA : st.captureActive = true
  · rcases msg <;> simp [hA, is_modifier_key]
  · simp only [Bool.not_eq_true] at hA
    simp [hA]

/-- A modifier-key event never changes the stored outcome or the
active flag (it only updates the held-modifier flags). -/
theorem hook_modifier_keeps (sc : Nat → Nat) (osn : Nat → Option String) (st : HookSt)
    (vk : Nat) (msg : KMsg) (h : is_modifier_key vk = true) :
    (keyboard_hook_proc sc osn st vk msg).captured = st.captured ∧
    (keyboard_hook_proc sc osn st vk msg).captureActive = st.captureActive := by
  have h27 : (vk == 0x1B) = false := by
    rcases hvk : (vk == 0x1B) with _ | _
    · rfl
    · exfalso
      have hkk : vk = 0x1B := by simpa using hvk
      rw [hkk] at h
      exact absurd h (by decide)
  unfold keyboard_hook_proc
  by_cases hA : st.captureActive = true
  · simp [hA, h27, h]
  · simp only [Bool.not_eq_true] at hA
    simp [hA]

/-- A non-modifier key-down other than Escape and Tab with a modifier
held and a resolvable name finalizes the capture in one invocation. -/
theorem hook_finalize_eq (sc : Nat → Nat) (osn : Nat → Option String) (st : HookSt)
    (vk : Nat) (nm : String) (hA : st.captureActive = true)
    (hm : is_modifier_key vk = false) (hesc : vk ≠ 0x1B) (htab : vk ≠ 0x09)
    (hmods : (st.capCtrl || st.capAlt || st.capShift || st.capWin) = true)
    (hv : vk_to_name sc osn vk = some nm) :
    keyboard_hook_proc sc osn st vk KMsg.down =
      { st with captureActive := false, captured := some (winModsStr st ++ nm) } := by
  have hc1 : (vk == 0x1B) = false := beq_eq_false_iff_ne.mpr hesc
  have hc3 : (vk == 0x09) = false := beq_eq_false_iff_ne.mpr htab
  unfold keyboard_hook_proc
  dsimp only
  rw [updateCapMods_nonmod st vk (KMsg.down == KMsg.down) (KMsg.down == KMsg.up) hm]
  simp [hA, hc1, hc3, hm, hmods, hv, winModsStr]

/-- A non-modifier key-down other than Escape and Tab with no modifier
held, or with an unresolvable name, is ignored: the outcome is
untouched and the session stays active. -/
theorem hook_ignored (sc : Nat → Nat) (osn : Nat → Option String) (st : HookSt)
    (vk : Nat) (hA : st.captureActive = true)
    (hm : is_modifier_key vk = false) (hesc : vk ≠ 0x1B) (htab : vk ≠ 0x09)
    (h : (st.capCtrl || st.capAlt || st.capShift || st.capWin) = false ∨
      vk_to_name sc osn vk = none) :
    (keyboard_hook_proc sc osn st vk KMsg.down).captured = st.captured ∧
    (keyboard_hook_proc sc osn st vk KMsg.down).captureActive = true := by
  have hc1 : (vk == 0x1B) = false := beq_eq_false_iff_ne.mpr hesc
  have hc3 : (vk == 0x09) = false := beq_eq_false_iff_ne.mpr htab
  unfold keyboard_hook_proc
  dsimp only
  rw [updateCapMods_nonmod st vk (KMsg.down == KMsg.down) (KMsg.down == KMsg.up) hm]
  rcases h with h | h
  · simp [hA, hc1, hc3, hm, h]
  · simp [hA, hc1, hc3, hm, h]

/-- While no capture is active, the hook reduces to the paste-detection
tail. -/
theorem hook_inactive_keeps (sc : Nat → Nat) (osn : Nat → Option String) (st : HookSt)
    (vk : Nat) (msg : KMsg) (h : st.captureActive = false) :
    keyboard_hook_proc sc osn st vk msg = pasteStep st vk (msg == KMsg.down) := by
  unfold keyboard_hook_proc
  simp [h]

/-- While no capture is active, a hook invocation freezes the whole
capture state: outcome, active flag and held-modifier flags. -/
theorem hook_inactive_frozen (sc : Nat → Nat) (osn : Nat → Option String) (st : HookSt)
    (vk : Nat) (msg : KMsg) (h : st.captureActive = false) :
    (keyboard_hook_proc sc osn st vk msg).captured = st.captured ∧
    (keyboard_hook_proc sc osn st vk msg).captureActive = false ∧
    (keyboard_hook_proc sc osn st vk msg).capCtrl = st.capCtrl ∧
    (keyboard_hook_proc sc osn st vk msg).capAlt = st.capAlt ∧
    (keyboard_hook_proc sc osn st vk msg).capShift = st.capShift ∧
    (keyboard_hook_proc sc osn st vk msg).capWin = st.capWin := by
  rw [hook_inactive_keeps sc osn st vk msg h]
  simp [h]

/-- Frozen capture state extends to whole inactive event sequences. -/
theorem hook_fold_frozen (sc : Nat → Nat) (osn : Nat → Option String)
    (evs : List (Nat × KMsg)) :
    ∀ st : HookSt, st.captureActive = false →
      ((evs.foldl (fun s e => keyboard_hook_proc sc osn s e.1 e.2) st).captured = st.captured ∧
       (evs.foldl (fun s e => keyboard_hook_proc sc osn s e.1 e.2) st).captureActive = false) := by
  induction evs with
  | nil => exact fun st h => ⟨rfl, h⟩
  | cons e evs ih =>
    intro st h
    rw [List.foldl_cons]
    obtain ⟨h1, h2, _⟩ := hook_inactive_frozen sc osn st e.1 e.2 h
    obtain ⟨ih1, ih2⟩ := ih _ h2
    exact ⟨ih1.trans h1, ih2⟩

/-- Escape during an active macOS capture cancels in one invocation. -/
theorem mac_escape_eq (st : MacSt) (f : MacFlags) (h : st.captureActive = true) :
    mac_event_tap_callback st 53 f =
      { st with captureActive := false, captured := some "" } := by
  unfold mac_event_tap_callback
  simp [h]

/-- A macOS modifier keycode never changes the stored outcome or the
active flag. -/
theorem mac_modifier_keeps (st : MacSt) (k : Nat) (f : MacFlags)
    (h : mac_is_modifier_key k = true) :
    (mac_event_tap_callback st k f).captured = st.captured ∧
    (mac_event_tap_callback st k f).captureActive = st.captureActive := by
  have hk53 : (k == 53) = false := by
    rcases hk : (k == 53) with _ | _
    · rfl
    · exfalso
      have hkk : k = 53 := by simpa using hk
      rw [hkk] at h
      exact absurd h (by decide)
  unfold mac_event_tap_callback
  by_cases hA : st.captureActive = true
  · simp [hA, hk53, h]
  · simp only [Bool.not_eq_true] at hA
    rcases hah : st.activeHotkey with _ | ah
    · simp [hA, hah]
    · simp [hA, hah, h]

/-- A non-modifier macOS keycode other than Escape with a modifier flag
and a table name finalizes the capture in one invocation (Tab has no
exclusion in this backend). -/
theorem mac_finalize_keeps (st : MacSt) (k : Nat) (f : MacFlags) (nm : String)
    (hA : st.captureActive = true) (hk53 : k ≠ 53)
    (hm : mac_is_modifier_key k = false)
    (hfl : (f.cmd || f.ctrl || f.alt || f.shift) = true)
    (hn : keycode_to_name k = some nm) :
    (mac_event_tap_callback st k f).captured = some (macModsStr f ++ nm) ∧
    (mac_event_tap_callback st k f).captureActive = false := by
  have hk : (k == 53) = false := beq_eq_false_iff_ne.mpr hk53
  unfold mac_event_tap_callback
  simp [hA, hk, hm, hfl, hn]

/-- A non-modifier macOS keycode other than Escape with no modifier
flag, or with no table name, is ignored: the outcome is untouched and
the session stays active. -/
theorem mac_ignored (st : MacSt) (k : Nat) (f : MacFlags)
    (hA : st.captureActive = true) (hk53 : k ≠ 53)
    (hm : mac_is_modifier_key k = false)
    (h : (f.cmd || f.ctrl || f.alt || f.shift) = false ∨ keycode_to_name k = none) :
    (mac_event_tap_callback st k f).captured = st.captured ∧
    (mac_event_tap_callback st k f).captureActive = true := by
  have hk : (k == 53) = false := beq_eq_false_iff_ne.mpr hk53
  unfold mac_event_tap_callback
  rcases h with h | h
  · simp [hA, hk, hm, h]
  · simp [hA, hk, hm, h]

/-- While no capture is active, a macOS callback invocation leaves the
capture cell frozen. -/
theorem mac_inactive_frozen (st : MacSt) (k : Nat) (f : MacFlags)
    (h : st.captureActive = false) :
    (mac_event_tap_callback st k f).captured = st.captured ∧
    (mac_event_tap_callback st k f).captureActive = false := by
  rcases mac_outcome st k f with ⟨h1, h2⟩ | ⟨h1, _⟩
  · exact ⟨h1, h2.trans h⟩
  · rw [h] at h1
    cases h1

/-- While no capture is active, a poll invocation is a no-op. -/
theorem poll_inactive (sc : Nat → Nat) (osn : Nat → Option String)
    (pressed : Nat → Bool) (st : HookSt) (h : st.captureActive = false) :
    poll_hotkey_capture sc osn pressed st = (none, st) := by
  unfold poll_hotkey_capture
  simp [h]

/-- A found poll candidate belongs to the scanned list and is down in
the snapshot. -/
theorem pollFind_mem (pressed : Nat → Bool) :
    ∀ (l : List Nat) (vk : Nat),
      pollFind pressed l = some vk → vk ∈ l ∧ pressed vk = true := by
  intro l
  induction l with
  | nil => intro vk h; cases h
  | cons x xs ih =>
    intro vk h
    unfold pollFind at h
    by_cases hx : (pressed x && !is_modifier_key x) = true
    · rw [if_pos hx] at h
      cases h
      have hx2 : pressed x = true ∧ (!is_modifier_key x) = true := by
        simpa using hx
      exact ⟨List.mem_cons_self _ _, hx2.1⟩
    · rw [if_neg hx] at h
      obtain ⟨h1, h2⟩ := ih vk h
      exact ⟨List.mem_cons_of_mem _ h1, h2⟩

/-- Every poll candidate is a non-modifier key other than Escape whose
name resolves through the common table. -/
theorem cand_facts :
    HOTKEY_CANDIDATES.all
      (fun vk => !is_modifier_key vk && (vk != 0x1B) && (common_key_name vk).isSome) = true := by
  decide

/-- Characterization of the normalizer loop: it succeeds exactly when
the token list contributes no key token (keeping the accumulated one)
or exactly one resolvable key token while none was accumulated, and the
final state merges the modifier synonyms present in the list. -/
theorem normLoop_ok_iff (ps : List String) : ∀ st st' : NormSt,
    normLoop ps st = .ok st' ↔
      ((macKeyToks ps = [] ∧ st' = mergeSt st ps st.key) ∨
       (∃ k n, macKeyToks ps = [k] ∧ st.key = none ∧ normalize_key_name k = some n ∧
         st' = mergeSt st ps (some n))) := by
  induction ps with
  | nil =>
    intro st st'
    constructor
    · intro h
      simp only [normLoop, Except.ok.injEq] at h
      subst h
      left
      refine ⟨rfl, ?_⟩
      simp [mergeSt, hasTok]
    · rintro (⟨_, hst⟩ | ⟨k, n, hsing, _, _, _⟩)
      · rw [hst]
        simp [normLoop, mergeSt, hasTok]
      · exact absurd hsing (by simp [macKeyToks])
  | cons t ps ih =>
    intro st st'
    by_cases ht : t = ""
    · subst ht
      exact ih st st'
    · by_cases h1 : asciiLower t = "cmd" ∨ asciiLower t = "command"
      · have hmod : isMacModTok t = true := by
          unfold isMacModTok
          rcases h1 with h | h <;> simp [tokIn, h]
        have hloop : normLoop (t :: ps) st = normLoop ps { st with cmd := true } := by
          simp only [normLoop]
          rw [if_neg ht, if_pos h1]
        have hkt : macKeyToks (t :: ps) = macKeyToks ps := by
          show (if t = "" ∨ isMacModTok t = true then macKeyToks ps
            else t :: macKeyToks ps) = macKeyToks ps
          rw [if_pos (Or.inr hmod)]
        have hms : ∀ key, mergeSt st (t :: ps) key = mergeSt { st with cmd := true } ps key := by
          intro key
          unfold mergeSt
          rcases h1 with h | h <;> simp [hasTok, tokIn, h]
        rw [hloop, hkt]
        simp only [hms]
        exact ih { st with cmd := true } st'
      · by_cases h2 : asciiLower t = "ctrl" ∨ asciiLower t = "control"
        · have hmod : isMacModTok t = true := by
            unfold isMacModTok
            rcases h2 with h | h <;> simp [tokIn, h]
          have hloop : normLoop (t :: ps) st = normLoop ps { st with ctrl := true } := by
            simp only [normLoop]
            rw [if_neg ht, if_neg h1, if_pos h2]
          have hkt : macKeyToks (t :: ps) = macKeyToks ps := by
            show (if t = "" ∨ isMacModTok t = true then macKeyToks ps
              else t :: macKeyToks ps) = macKeyToks ps
            rw [if_pos (Or.inr hmod)]
          have hms : ∀ key,
              mergeSt st (t :: ps) key = mergeSt { st with ctrl := true } ps key := by
            intro key
            unfold mergeSt
            rcases h2 with h | h <;> simp [hasTok, tokIn, h]
          rw [hloop, hkt]
          simp only [hms]
          exact ih { st with ctrl := true } st'
        · by_cases h3 : asciiLower t = "alt" ∨ asciiLower t = "option" ∨ asciiLower t = "opt"
          · have hmod : isMacModTok t = true := by
              unfold isMacModTok
              rcases h3 with h | h | h <;> simp [tokIn, h]
            have hloop : normLoop (t :: ps) st = normLoop ps { st with alt := true } := by
              simp only [normLoop]
              rw [if_neg ht, if_neg h1, if_neg h2, if_pos h3]
            have hkt : macKeyToks (t :: ps) = macKeyToks ps := by
              show (if t = "" ∨ isMacModTok t = true then macKeyToks ps
                else t :: macKeyToks ps) = macKeyToks ps
              rw [if_pos (Or.inr hmod)]
            have hms : ∀ key,
                mergeSt st (t :: ps) key = mergeSt { st with alt := true } ps key := by
              intro key
              unfold mergeSt
              rcases h3 with h | h | h <;> simp [hasTok, tokIn, h]
            rw [hloop, hkt]
            simp only [hms]
            exact ih { st with alt := true } st'
          · by_cases h4 : asciiLower t = "shift"
            · have hmod : isMacModTok t = true := by
                unfold isMacModTok
                simp [tokIn, h4]
              have hloop : normLoop (t :: ps) st = normLoop ps { st with shift := true } := by
                simp only [normLoop]
                rw [if_neg ht, if_neg h1, if_neg h2, if_neg h3, if_pos h4]
              have hkt : macKeyToks (t :: ps) = macKeyToks ps := by
                show (if t = "" ∨ isMacModTok t = true then macKeyToks ps
                  else t :: macKeyToks ps) = macKeyToks ps
                rw [if_pos (Or.inr hmod)]
              have hms : ∀ key,
                  mergeSt st (t :: ps) key = mergeSt { st with shift := true } ps key := by
                intro key
                unfold mergeSt
                simp [hasTok, tokIn, h4]
              rw [hloop, hkt]
              simp only [hms]
              exact ih { st with shift := true } st'
            · have hloop : normLoop (t :: ps) st =
                  (if st.key.isSome = true then
                    Except.error "Hotkey contains multiple main keys"
                  else
                    match normalize_key_name t with
                    | none => Except.error ("Unknown key: " ++ t)
                    | some n => normLoop ps { st with key := some n }) := by
                simp only [normLoop]
                rw [if_neg ht, if_neg h1, if_neg h2, if_neg h3, if_neg h4]
              push_neg at h1 h2 h3
              have hmod : isMacModTok t = false := by
                unfold isMacModTok
                simp [tokIn, h1.1, h1.2, h2.1, h2.2, h3.1, h3.2.1, h3.2.2, h4]
              have hkt : macKeyToks (t :: ps) = t :: macKeyToks ps := by
                show (if t = "" ∨ isMacModTok t = true then macKeyToks ps
                  else t :: macKeyToks ps) = t :: macKeyToks ps
                rw [if_neg (by simp [ht, hmod])]
              have hms : ∀ key, mergeSt st (t :: ps) key = mergeSt st ps key := by
                have e1 : (asciiLower t == "cmd") = false := beq_eq_false_iff_ne.mpr h1.1
                have e2 : (asciiLower t == "command") = false := beq_eq_false_iff_ne.mpr h1.2
                have e3 : (asciiLower t == "ctrl") = false := beq_eq_false_iff_ne.mpr h2.1
                have e4 : (asciiLower t == "control") = false := beq_eq_false_iff_ne.mpr h2.2
                have e5 : (asciiLower t == "alt") = false := beq_eq_false_iff_ne.mpr h3.1
                have e6 : (asciiLower t == "option") = false := beq_eq_false_iff_ne.mpr h3.2.1
                have e7 : (asciiLower t == "opt") = false := beq_eq_false_iff_ne.mpr h3.2.2
                have e8 : (asciiLower t == "shift") = false := beq_eq_false_iff_ne.mpr h4
                intro key
                unfold mergeSt
                simp [hasTok, tokIn, e1, e2, e3, e4, e5, e6, e7, e8]
              rcases hk : st.key with _ | k0
              · rcases hn : normalize_key_name t with _ | n
                · rw [hloop]
                  simp only [hk, Option.isSome_none, Bool.false_eq_true, if_false, hn]
                  constructor
                  · intro h
                    cases h
                  · rintro (⟨hE, _⟩ | ⟨k, n', hsing, _, hkn, _⟩)
                    · rw [hkt] at hE
                      cases hE
                    · rw [hkt] at hsing
                      have hkt2 : k = t := ((List.cons.inj hsing).1).symm
                      rw [hkt2, hn] at hkn
                      cases hkn
                · rw [hloop]
                  simp only [hk, Option.isSome_none, Bool.false_eq_true, if_false, hn]
                  rw [ih { st with key := some n } st']
                  constructor
                  · rintro (⟨hE, hst⟩ | ⟨k, n', _, hkey, _, _⟩)
                    · right
                      refine ⟨t, n, by rw [hkt, hE], trivial, hn, ?_⟩
                      rw [hst, hms]
                      rfl
                    · exact absurd hkey (by simp)
                  · rintro (⟨hE, _⟩ | ⟨k, n', hsing, _, hkn, hst⟩)
                    · rw [hkt] at hE
                      cases hE
                    · rw [hkt] at hsing
                      have hkt2 : k = t := ((List.cons.inj hsing).1).symm
                      have hE : macKeyToks ps = [] := (List.cons.inj hsing).2
                      rw [hkt2, hn] at hkn
                      have hn2 : n' = n := by
                        cases hkn
                        rfl
                      left
                      refine ⟨hE, ?_⟩
                      rw [hst, hn2, hms]
                      rfl
              · rw [hloop]
                simp only [hk, Option.isSome_some, if_true]
                constructor
                · intro h
                  cases h
                · rintro (⟨hE, _⟩ | ⟨k, n', _, hkey, _, _⟩)
                  · rw [hkt] at hE
                    cases hE
                  · cases hkey

/-- Claim C1, counterexample. The claim says parsing `Ctrl+Alt+Q+W`
fails with `MultipleMainKeys` and parsing the empty string fails with
`EmptyInput`, and that no input of its rejection set is accepted. But
`parse_hotkey` accepts `Ctrl+Alt+Q+W`, the last key token winning,
because its loop overwrites the key code without a check; and on the
empty string it reports an unknown key (the empty-split check is
unreachable, since splitting the empty string yields one empty token),
while `normalize_hotkey_string` reports a missing main key. -/
theorem c1_counterexample :
    parse_hotkey "Ctrl+Alt+Q+W" = .ok ⟨{ control := true, alt := true }, "KeyW"⟩ ∧
    parse_hotkey "" = .error "Unknown key: " ∧
    normalize_hotkey_string "" = .error "Hotkey missing main key" := by
  refine ⟨by decide, by decide, by decide⟩

/-- Claim C1, amended. The actual rejection behaviour of the two
parsers: `parse_hotkey` rejects `Q` with the no-modifier error,
rejects `Ctrl+` and the empty string with an unknown-key error on the
empty token, accepts `Ctrl+Alt+Q+W` with the last key winning, and
rejects `Ctrl+Banana` with an unknown-key error;
`normalize_hotkey_string` rejects `Q` with the no-modifier error,
`Ctrl+` and the empty string with the missing-main-key error,
`Ctrl+Alt+Q+W` with the multiple-main-keys error, and `Ctrl+Banana`
with an unknown-key error. Neither parser ever reports the
empty-input error. -/
theorem c1_amended :
    parse_hotkey "Q" = .error "Hotkey must include at least one modifier" ∧
    parse_hotkey "Ctrl+" = .error "Unknown key: " ∧
    parse_hotkey "Ctrl+Alt+Q+W" = .ok ⟨{ control := true, alt := true }, "KeyW"⟩ ∧
    parse_hotkey "" = .error "Unknown key: " ∧
    parse_hotkey "Ctrl+Banana" = .error "Unknown key: banana" ∧
    normalize_hotkey_string "Q" = .error "Hotkey must include at least one modifier" ∧
    normalize_hotkey_string "Ctrl+" = .error "Hotkey missing main key" ∧
    normalize_hotkey_string "Ctrl+Alt+Q+W" = .error "Hotkey contains multiple main keys" ∧
    normalize_hotkey_string "" = .error "Hotkey missing main key" ∧
    normalize_hotkey_string "Ctrl+Banana" = .error "Unknown key: Banana" := by
  refine ⟨by decide, by decide, by decide, by decide, by decide, by decide, by decide,
    by decide, by decide, by decide⟩

/-! ## Claim C2 -/

/-- Claim C2: for every update to a different mnemonic, the platform
call trace registers the new binding strictly before unregistering the
old one, and when the new registration fails the update returns the
error, the whole manager state is unchanged, no unregister call is
made, and the old binding is still registered. -/
theorem c2_update_register_before_release
    (hid : HotKey → Nat) (regOk unregOk : HotKey → Bool) (st : ManagerSt)
    (s : String) (hk : HotKey)
    (hne : asciiLower s ≠ st.current_hotkey)
    (hparse : parse_hotkey s = .ok hk) :
    (regOk hk = false →
      (update_hotkey hid regOk unregOk st s).1 = .error "platform registration failed" ∧
      (update_hotkey hid regOk unregOk st s).2.1 = st ∧
      (update_hotkey hid regOk unregOk st s).2.2 = [.register hk] ∧
      (st.translate_hotkey ∈ st.registered →
        st.translate_hotkey ∈ (update_hotkey hid regOk unregOk st s).2.1.registered)) ∧
    (regOk hk = true →
      (update_hotkey hid regOk unregOk st s).2.2 =
        [.register hk, .unregister st.translate_hotkey]) := by
  unfold update_hotkey
  rw [if_neg hne, hparse]
  dsimp only
  constructor
  · intro hreg
    rw [hreg]
    simp
  · intro hreg
    rw [hreg]
    by_cases hu : unregOk st.translate_hotkey = true
    · simp [hu]
    · simp only [Bool.not_eq_true] at hu
      simp [hu]

/-- Claim C2, witness: a failed registration of Ctrl+Shift+T leaves the
manager state with the Alt+Q binding completely unchanged and still
registered, and attempts only the one register call. -/
theorem c2_witness :
    (update_hotkey hid0 noneOk allOk mgr0 "Ctrl+Shift+T").1 =
      .error "platform registration failed" ∧
    (update_hotkey hid0 noneOk allOk mgr0 "Ctrl+Shift+T").2.1 = mgr0 ∧
    (update_hotkey hid0 noneOk allOk mgr0 "Ctrl+Shift+T").2.2 =
      [.register hkCtrlShiftT] ∧
    mgr0.translate_hotkey ∈ (update_hotkey hid0 noneOk allOk mgr0 "Ctrl+Shift+T").2.1.registered := by
  have h := (c2_update_register_before_release hid0 noneOk allOk mgr0 "Ctrl+Shift+T"
    hkCtrlShiftT (by decide) (by decide)).1 (by decide)
  exact ⟨h.1, h.2.1, h.2.2.1, h.2.2.2 (by decide)⟩

/-! ## Claim C4 -/

/-- Claim C4, counterexample. The claim says the canonical form orders
the modifiers Ctrl, Alt, Shift, Meta with Meta last, but the normalizer
renders the Command (Meta) flag first: `ctrl+cmd+t` canonicalizes to
`Cmd+Ctrl+T`, not to `Ctrl+Cmd+T`. -/
theorem c4_counterexample :
    normalize_hotkey_string "ctrl+cmd+t" = .ok "Cmd+Ctrl+T" ∧
    normalize_hotkey_string "ctrl+cmd+t" ≠ .ok "Ctrl+Cmd+T" := by
  refine ⟨by decide, by decide⟩

/-- Claim C4, amended. A mnemonic normalizes successfully exactly when
its token list holds exactly one key token, resolvable through the key
table, and at least one modifier synonym; the canonical output then
renders the modifiers in the fixed order Cmd, Ctrl, Alt, Shift (Meta
first) followed by the case-normalized key name, and it depends only on
which synonym classes occur and on the lowered key token — hence it is
the same regardless of input letter case, modifier order or synonym
spelling, as the concrete spellings of `Ctrl+Shift+T` and `Cmd+Ctrl+T`
illustrate. -/
theorem c4_amended :
    (∀ (s : String) (out : String), normalize_hotkey_string s = .ok out ↔
      ∃ k n, macKeyToks (tokenize s) = [k] ∧ normalize_key_name k = some n ∧
        (hasTok ["cmd", "command"] (tokenize s) || hasTok ["ctrl", "control"] (tokenize s) ||
         hasTok ["alt", "option", "opt"] (tokenize s) ||
         hasTok ["shift"] (tokenize s)) = true ∧
        out = (if hasTok ["cmd", "command"] (tokenize s) then "Cmd+" else "") ++
          (if hasTok ["ctrl", "control"] (tokenize s) then "Ctrl+" else "") ++
          (if hasTok ["alt", "option", "opt"] (tokenize s) then "Alt+" else "") ++
          (if hasTok ["shift"] (tokenize s) then "Shift+" else "") ++ n) ∧
    normalize_hotkey_string "ctrl+shift+t" = .ok "Ctrl+Shift+T" ∧
    normalize_hotkey_string "Control+Shift+T" = .ok "Ctrl+Shift+T" ∧
    normalize_hotkey_string "Shift+Ctrl+T" = .ok "Ctrl+Shift+T" ∧
    normalize_hotkey_string "cmd+ctrl+t" = .ok "Cmd+Ctrl+T" ∧
    normalize_hotkey_string "Ctrl+Cmd+T" = .ok "Cmd+Ctrl+T" := by
  refine ⟨?_, by decide, by decide, by decide, by decide, by decide⟩
  intro s out
  unfold normalize_hotkey_string
  constructor
  · intro h
    rcases hl : normLoop (tokenize s) {} with e | stf
    · rw [hl] at h
      cases h
    · rw [hl] at h
      dsimp only at h
      rcases hkf : stf.key with _ | n
      · rw [hkf] at h
        cases h
      · rw [hkf] at h
        dsimp only at h
        by_cases hm : (stf.cmd || stf.ctrl || stf.alt || stf.shift) = true
        · rw [if_pos hm] at h
          injection h with h
          have hc := (normLoop_ok_iff (tokenize s) {} stf).mp hl
          rcases hc with ⟨_, hst⟩ | ⟨k, n', hsing, _, hkn, hst⟩
          · rw [hst] at hkf
            exact Option.noConfusion hkf
          · have hnn : n' = n := by
              rw [hst] at hkf
              exact Option.some.inj hkf
            subst hnn
            refine ⟨k, n', hsing, hkn, ?_, ?_⟩
            · rw [hst] at hm
              simpa [mergeSt] using hm
            · rw [← h, hst]
              simp [mergeSt]
        · rw [if_neg hm] at h
          cases h
  · rintro ⟨k, n, hsing, hkn, hm, hout⟩
    have hc : normLoop (tokenize s) {} = .ok (mergeSt {} (tokenize s) (some n)) :=
      (normLoop_ok_iff (tokenize s) {} _).mpr (Or.inr ⟨k, n, hsing, rfl, hkn, rfl⟩)
    rw [hc]
    simp only [mergeSt, Bool.false_or]
    rw [if_pos hm, hout]

/-- Claim C4, witness: the characterization instantiated on the
mnemonic `alt+f5`, whose canonical output is `Alt+F5`. -/
theorem c4_witness :
    ∃ k n, macKeyToks (tokenize "alt+f5") = [k] ∧ normalize_key_name k = some n ∧
      (hasTok ["cmd", "command"] (tokenize "alt+f5") ||
       hasTok ["ctrl", "control"] (tokenize "alt+f5") ||
       hasTok ["alt", "option", "opt"] (tokenize "alt+f5") ||
       hasTok ["shift"] (tokenize "alt+f5")) = true ∧
      "Alt+F5" = (if hasTok ["cmd", "command"] (tokenize "alt+f5") then "Cmd+" else "") ++
        (if hasTok ["ctrl", "control"] (tokenize "alt+f5") then "Ctrl+" else "") ++
        (if hasTok ["alt", "option", "opt"] (tokenize "alt+f5") then "Alt+" else "") ++
        (if hasTok ["shift"] (tokenize "alt+f5") then "Shift+" else "") ++ n :=
  (c4_amended.1 "alt+f5" "Alt+F5").mp (by decide)

/-! ## Claim C5 -/

/-- Claim C5, counterexample: see `c5trace` above. The claim says two
spellings of the same hotkey perform at most one platform registration
call in total, but the no-op check of `update_hotkey` compares only
lowercased strings, and `shift+ctrl+t` differs from the stored
`ctrl+shift+t`, so the second update registers the very same hotkey
again: the trace holds two register calls. -/
theorem c5_counterexample :
    countRegisterCalls c5trace = 2 ∧ ¬ countRegisterCalls c5trace ≤ 1 := by
  refine ⟨by decide, by decide⟩

/-- Claim C5, amended: an update whose lowercased mnemonic equals the
stored lowercased mnemonic (same spelling up to letter case only) is a
no-op that returns success with no platform call at all; but two
spellings differing in modifier order are not recognized as equal, and
the two updates of the scenario perform two register calls. -/
theorem c5_amended :
    (∀ (hid : HotKey → Nat) (regOk unregOk : HotKey → Bool) (st : ManagerSt) (s : String),
      asciiLower s = st.current_hotkey →
      update_hotkey hid regOk unregOk st s = (.ok (), st, [])) ∧
    countRegisterCalls c5trace = 2 := by
  constructor
  · intro hid regOk unregOk st s h
    unfold update_hotkey
    rw [if_pos h]
  · decide

/-- Claim C5, witness: updating with `ALT+Q` while `alt+q` is active is
a no-op with an empty platform-call trace. -/
theorem c5_witness :
    update_hotkey hid0 allOk allOk mgr0 "ALT+Q" = (.ok (), mgr0, []) :=
  c5_amended.1 hid0 allOk allOk mgr0 "ALT+Q" (by decide)

/-! ## Claim C7 -/

/-- Folding the macOS installer from a state that has already reported
leaves the fault state untouched. -/
theorem macInstalls_of_reported (evs : List InstallAttempt) (st : FaultSt)
    (h : st.reported = true) : evs.foldl mac_monitor_install st = st := by
  induction evs with
  | nil => rfl
  | cons e evs ih =>
    have he : mac_monitor_install st e = st := by
      simp [mac_monitor_install, report_keyboard_monitor_error, h]
    rw [List.foldl_cons, he, ih]

/-- A failing attempt from the fresh state reports exactly one
message. -/
theorem mac_install_fresh_fail (a : InstallAttempt) (h : installFails a = true) :
    ∃ m, mac_monitor_install ⟨false, []⟩ a = ⟨true, [m]⟩ := by
  rcases ha : a.tapOk with _ | _
  · exact ⟨"keyboard monitor failed: " ++ a.errText,
      by simp [mac_monitor_install, report_keyboard_monitor_error, ha]⟩
  · rcases hb : a.sourceOk with _ | _
    · exact ⟨"keyboard runloop source failed: " ++ a.errText,
        by simp [mac_monitor_install, report_keyboard_monitor_error, ha, hb]⟩
    · exfalso
      unfold installFails at h
      rw [ha, hb] at h
      simp at h

/-- Claim C7, counterexample. The claim says that when installation of
the raw key-event source fails, the failure is captured into the
MonitorFault channel; but on Windows a failed hook installation only
appends a line to the hotkey log, and the fault channel stays empty. -/
theorem c7_counterexample :
    (win_start_keyboard_monitor ⟨false, []⟩ false []).1.sent = [] ∧
    (win_start_keyboard_monitor ⟨false, []⟩ false []).2 = ["keyboard hook failed"] := by
  refine ⟨by decide, by decide⟩

/-- Claim C7, amended: on macOS any process lifetime containing at
least one failed installation attempt sends exactly one fault message,
and never more than one in any case; on Windows, installation failure
never touches the fault state, it only writes to the log. -/
theorem c7_amended :
    (∀ evs : List InstallAttempt, evs.any installFails = true →
      (runMacInstalls evs).sent.length = 1) ∧
    (∀ evs : List InstallAttempt, (runMacInstalls evs).sent.length ≤ 1) ∧
    (∀ (st : FaultSt) (hookOk : Bool) (log : List String),
      (win_start_keyboard_monitor st hookOk log).1 = st) := by
  have key : ∀ evs : List InstallAttempt,
      (runMacInstalls evs = ⟨false, []⟩ ∧ evs.any installFails = false) ∨
      (∃ m, runMacInstalls evs = ⟨true, [m]⟩ ∧ evs.any installFails = true) := by
    intro evs
    induction evs with
    | nil => left; exact ⟨rfl, rfl⟩
    | cons e evs ih =>
      by_cases hf : installFails e = true
      · right
        obtain ⟨m, hm⟩ := mac_install_fresh_fail e hf
        refine ⟨m, ?_, by simp [List.any_cons, hf]⟩
        unfold runMacInstalls
        rw [List.foldl_cons, hm, macInstalls_of_reported evs ⟨true, [m]⟩ rfl]
      · have hfe : installFails e = false := by
          rcases hx : installFails e with _ | _
          · rfl
          · exact absurd hx hf
        have hsucc : mac_monitor_install ⟨false, []⟩ e = ⟨false, []⟩ := by
          unfold installFails at hfe
          rcases ha : e.tapOk with _ | _ <;> rcases hb : e.sourceOk with _ | _ <;>
            simp_all [mac_monitor_install]
        have hstep : runMacInstalls (e :: evs) = runMacInstalls evs := by
          unfold runMacInstalls
          rw [List.foldl_cons, hsucc]
        rcases ih with ⟨h1, h2⟩ | ⟨m, h1, h2⟩
        · left
          exact ⟨hstep.trans h1, by simp [List.any_cons, hfe, h2]⟩
        · right
          exact ⟨m, hstep.trans h1, by simp [List.any_cons, h2]⟩
  refine ⟨?_, ?_, ?_⟩
  · intro evs h
    rcases key evs with ⟨_, h2⟩ | ⟨m, h1, _⟩
    · rw [h] at h2; cases h2
    · rw [h1]; simp
  · intro evs
    rcases key evs with ⟨h1, _⟩ | ⟨m, h1, _⟩ <;> rw [h1] <;> simp
  · intro st hookOk log
    unfold win_start_keyboard_monitor
    split <;> rfl

/-- Claim C7, witness: two consecutive failed tap installations send
exactly one fault message. -/
theorem c7_witness :
    (runMacInstalls [⟨false, true, "denied"⟩, ⟨false, true, "denied"⟩]).sent.length = 1 :=
  c7_amended.1 [⟨false, true, "denied"⟩, ⟨false, true, "denied"⟩] (by decide)

/-! ## Claim C8 -/

/-- Claim C8: the popup placement function is pure in cursor, popup
size and screen size; on a 1920 by 1080 screen a cursor at (960, 540)
with a 380 by 220 popup yields (770, 310); a cursor at the top edge
(y = 5) yields a position below the cursor; whenever the popup fits on
the screen and the cursor is at a nonnegative height the returned box
stays inside the screen on both axes; and in the unclamped case the box
is centered on the cursor and placed 10 pixels above it. -/
theorem c8_calculate_popup_position :
    calculate_popup_position 1920 1080 960 540 380 220 = (770, 310) ∧
    calculate_popup_position 1920 1080 960 5 380 220 = (770, 25) ∧
    (calculate_popup_position 1920 1080 960 5 380 220).2 > 5 ∧
    (∀ sw sh cx cy w h : Int, w ≤ sw → h ≤ sh → 0 ≤ cy →
      0 ≤ (calculate_popup_position sw sh cx cy w h).1 ∧
      (calculate_popup_position sw sh cx cy w h).1 + w ≤ sw ∧
      0 ≤ (calculate_popup_position sw sh cx cy w h).2 ∧
      (calculate_popup_position sw sh cx cy w h).2 + h ≤ sh) ∧
    (∀ sw sh cx cy w h : Int,
      0 ≤ cx - Int.tdiv w 2 → cx - Int.tdiv w 2 + w ≤ sw →
      0 ≤ cy - h - 10 → cy ≤ sh + 10 →
      calculate_popup_position sw sh cx cy w h = (cx - Int.tdiv w 2, cy - h - 10)) := by
  refine ⟨by decide, by decide, by decide, ?_, ?_⟩
  · intro sw sh cx cy w h hw hh hcy
    unfold calculate_popup_position
    dsimp only
    split_ifs <;> refine ⟨by omega, by omega, by omega, by omega⟩
  · intro sw sh cx cy w h h1 h2 h3 h4
    unfold calculate_popup_position
    dsimp only
    split_ifs <;> first
      | rfl
      | (exfalso; omega)

/-- Claim C8, witness: the in-bounds guarantee instantiated on the
screen, cursor and popup of the specification example. -/
theorem c8_witness :
    0 ≤ (calculate_popup_position 1920 1080 960 540 380 220).1 ∧
    (calculate_popup_position 1920 1080 960 540 380 220).1 + 380 ≤ 1920 ∧
    0 ≤ (calculate_popup_position 1920 1080 960 540 380 220).2 ∧
    (calculate_popup_position 1920 1080 960 540 380 220).2 + 220 ≤ 1080 :=
  c8_calculate_popup_position.2.2.2.1 1920 1080 960 540 380 220
    (by decide) (by decide) (by decide)

/-! ## Claim C3 -/

/-- Claim C3, counterexample. The claim says a Tab key-down never
finalizes an active capture session, but the macOS event-tap callback
has no Tab exclusion: with Alt held, the Tab keycode 48 resolves to the
name `Tab` and finalizes the session as `Captured("Alt+Tab")`. -/
theorem c3_counterexample :
    keycode_to_name 48 = some "Tab" ∧
    (mac_event_tap_callback macCapSt 48 ⟨false, false, true, false⟩).captured =
      some "Alt+Tab" ∧
    (mac_event_tap_callback macCapSt 48 ⟨false, false, true, false⟩).captureActive = false := by
  refine ⟨by decide, by decide, by decide⟩

/-- Claim C3, amended. For every raw key event during an active
capture: an Escape key-down finalizes as Cancelled whatever modifiers
are held, on both backends; a modifier transition never finalizes; on
the Windows hook a Tab key-down never finalizes, while the macOS tap
treats Tab like any other key; and any other non-modifier key-down
finalizes as Captured with the held modifiers and the resolved name if
and only if at least one modifier is held and the name resolves —
otherwise the event is ignored and the session stays active. -/
theorem c3_amended :
    (∀ (sc : Nat → Nat) (osn : Nat → Option String) (st : HookSt),
      st.captureActive = true →
      keyboard_hook_proc sc osn st 0x1B KMsg.down =
        { st with captureActive := false, captured := some "" }) ∧
    (∀ (sc : Nat → Nat) (osn : Nat → Option String) (st : HookSt) (msg : KMsg),
      (keyboard_hook_proc sc osn st 0x09 msg).captured = st.captured ∧
      (keyboard_hook_proc sc osn st 0x09 msg).captureActive = st.captureActive) ∧
    (∀ (sc : Nat → Nat) (osn : Nat → Option String) (st : HookSt) (vk : Nat) (msg : KMsg),
      is_modifier_key vk = true →
      (keyboard_hook_proc sc osn st vk msg).captured = st.captured ∧
      (keyboard_hook_proc sc osn st vk msg).captureActive = st.captureActive) ∧
    (∀ (sc : Nat → Nat) (osn : Nat → Option String) (st : HookSt) (vk : Nat),
      st.captureActive = true → is_modifier_key vk = false → vk ≠ 0x1B → vk ≠ 0x09 →
      (∀ nm, (st.capCtrl || st.capAlt || st.capShift || st.capWin) = true →
        vk_to_name sc osn vk = some nm →
        keyboard_hook_proc sc osn st vk KMsg.down =
          { st with captureActive := false, captured := some (winModsStr st ++ nm) }) ∧
      (((st.capCtrl || st.capAlt || st.capShift || st.capWin) = false ∨
          vk_to_name sc osn vk = none) →
        (keyboard_hook_proc sc osn st vk KMsg.down).captured = st.captured ∧
        (keyboard_hook_proc sc osn st vk KMsg.down).captureActive = true)) ∧
    (∀ (st : MacSt) (f : MacFlags), st.captureActive = true →
      mac_event_tap_callback st 53 f =
        { st with captureActive := false, captured := some "" }) ∧
    (∀ (st : MacSt) (k : Nat) (f : MacFlags), mac_is_modifier_key k = true →
      (mac_event_tap_callback st k f).captured = st.captured ∧
      (mac_event_tap_callback st k f).captureActive = st.captureActive) ∧
    (∀ (st : MacSt) (k : Nat) (f : MacFlags),
      st.captureActive = true → k ≠ 53 → mac_is_modifier_key k = false →
      (∀ nm, (f.cmd || f.ctrl || f.alt || f.shift) = true → keycode_to_name k = some nm →
        (mac_event_tap_callback st k f).captured = some (macModsStr f ++ nm) ∧
        (mac_event_tap_callback st k f).captureActive = false) ∧
      (((f.cmd || f.ctrl || f.alt || f.shift) = false ∨ keycode_to_name k = none) →
        (mac_event_tap_callback st k f).captured = st.captured ∧
        (mac_event_tap_callback st k f).captureActive = true)) := by
  refine ⟨hook_escape_eq, hook_tab_keeps, ?_, ?_, mac_escape_eq, ?_, ?_⟩
  · exact fun sc osn st vk msg h => hook_modifier_keeps sc osn st vk msg h
  · intro sc osn st vk hA hm hesc htab
    exact ⟨fun nm hmods hv => hook_finalize_eq sc osn st vk nm hA hm hesc htab hmods hv,
      fun h => hook_ignored sc osn st vk hA hm hesc htab h⟩
  · exact fun st k f h => mac_modifier_keeps st k f h
  · intro st k f hA hk53 hm
    exact ⟨fun nm hfl hn => mac_finalize_keeps st k f nm hA hk53 hm hfl hn,
      fun h => mac_ignored st k f hA hk53 hm h⟩

/-- Claim C3, witness: with Ctrl held, a Q key-down finalizes the
Windows hook capture as `Ctrl+Q` and deactivates the session in the
same invocation. -/
theorem c3_witness :
    keyboard_hook_proc sc1 osnN hsCtrl 0x51 KMsg.down =
      { hsCtrl with captureActive := false, captured := some "Ctrl+Q" } := by
  have h := (c3_amended.2.2.2.1 sc1 osnN hsCtrl 0x51 (by decide) (by decide)
    (by decide) (by decide)).1 "Q" (by decide) (by decide)
  exact h.trans (by decide)

/-! ## Claim C6 -/

/-- Claim C6, counterexample. The claim says the polling fallback
applies exactly the push rules (Tab excluded, Escape cancels), but the
poll scans a fixed candidate list that contains Tab and has no Escape
branch: on a snapshot holding Ctrl and Tab the poll finalizes
`Captured("Ctrl+Tab")` while the hook would ignore the Tab key-down,
and on a snapshot holding Ctrl and Escape the poll does nothing while
the hook would cancel. -/
theorem c6_counterexample :
    (poll_hotkey_capture sc1 osnN prCtrlTab hsCtrl).1 = some "Ctrl+Tab" ∧
    (keyboard_hook_proc sc1 osnN hsCtrl 0x09 KMsg.down).captured = none ∧
    (keyboard_hook_proc sc1 osnN hsCtrl 0x09 KMsg.down).captureActive = true ∧
    (poll_hotkey_capture sc1 osnN prCtrlEsc hsCtrl).1 = none ∧
    (keyboard_hook_proc sc1 osnN hsCtrl 0x1B KMsg.down).captured = some "" := by
  refine ⟨by decide, by decide, by decide, by decide, by decide⟩

/-- Claim C6, amended. The polling fallback shares the modifier
requirement of the push rules but not the rest: it finalizes exactly
when the session is active, some modifier is down in the snapshot, and
some key of its fixed candidate list is down; it never delivers the
Cancelled marker (no Escape rule); on a non-Tab candidate with matching
held-modifier flags it stores exactly the outcome the hook would store
for that key-down; and on the Tab candidate it finalizes a Tab mnemonic
although the hook ignores Tab. -/
theorem c6_amended :
    (∀ (sc : Nat → Nat) (osn : Nat → Option String) (pressed : Nat → Bool) (st : HookSt),
      (poll_hotkey_capture sc osn pressed st).1.isSome = true ↔
        (st.captureActive = true ∧ anyModPressed pressed = true ∧
          (pollFind pressed HOTKEY_CANDIDATES).isSome = true)) ∧
    (∀ (sc : Nat → Nat) (osn : Nat → Option String) (pressed : Nat → Bool) (st : HookSt)
      (s : String), (poll_hotkey_capture sc osn pressed st).1 = some s → s ≠ "") ∧
    (∀ (sc : Nat → Nat) (osn : Nat → Option String) (pressed : Nat → Bool) (st : HookSt)
      (vk : Nat), st.captureActive = true → bitsMatch st pressed →
      anyModPressed pressed = true → pollFind pressed HOTKEY_CANDIDATES = some vk →
      vk ≠ 0x09 →
      (poll_hotkey_capture sc osn pressed st).2.captured =
        (keyboard_hook_proc sc osn st vk KMsg.down).captured ∧
      (poll_hotkey_capture sc osn pressed st).2.captureActive = false ∧
      (keyboard_hook_proc sc osn st vk KMsg.down).captureActive = false) ∧
    (∀ (sc : Nat → Nat) (osn : Nat → Option String) (pressed : Nat → Bool) (st : HookSt),
      st.captureActive = true → anyModPressed pressed = true →
      pollFind pressed HOTKEY_CANDIDATES = some 0x09 →
      (poll_hotkey_capture sc osn pressed st).2.captured =
        some (modsRender (pressed 0x11 || pressed 0xA2 || pressed 0xA3)
          (pressed 0x12 || pressed 0xA4 || pressed 0xA5)
          (pressed 0x10 || pressed 0xA0 || pressed 0xA1)
          (pressed 0x5B || pressed 0x5C) ++ "Tab") ∧
      (keyboard_hook_proc sc osn st 0x09 KMsg.down).captured = st.captured ∧
      (keyboard_hook_proc sc osn st 0x09 KMsg.down).captureActive = st.captureActive) := by
  have hpoll_eq : ∀ (sc : Nat → Nat) (osn : Nat → Option String) (pressed : Nat → Bool)
      (st : HookSt) (vk : Nat), st.captureActive = true → anyModPressed pressed = true →
      pollFind pressed HOTKEY_CANDIDATES = some vk →
      poll_hotkey_capture sc osn pressed st =
        (some (modsRender (pressed 0x11 || pressed 0xA2 || pressed 0xA3)
            (pressed 0x12 || pressed 0xA4 || pressed 0xA5)
            (pressed 0x10 || pressed 0xA0 || pressed 0xA1)
            (pressed 0x5B || pressed 0x5C) ++ (vk_to_name sc osn vk).getD (vkHex vk)),
          { st with
            captureActive := false
            captured := some (modsRender (pressed 0x11 || pressed 0xA2 || pressed 0xA3)
              (pressed 0x12 || pressed 0xA4 || pressed 0xA5)
              (pressed 0x10 || pressed 0xA0 || pressed 0xA1)
              (pressed 0x5B || pressed 0x5C) ++ (vk_to_name sc osn vk).getD (vkHex vk)) }) := by
    intro sc osn pressed st vk hA hM hf
    have hM2 : (pressed 0x11 || pressed 0xA2 || pressed 0xA3 ||
        (pressed 0x12 || pressed 0xA4 || pressed 0xA5) ||
        (pressed 0x10 || pressed 0xA0 || pressed 0xA1) ||
        (pressed 0x5B || pressed 0x5C)) = true := hM
    unfold poll_hotkey_capture
    simp [hA, hM2, hf, modsRender]
  have hvk_facts : ∀ vk, vk ∈ HOTKEY_CANDIDATES →
      is_modifier_key vk = false ∧ vk ≠ 0x1B ∧ (common_key_name vk).isSome = true := by
    intro vk hmem
    have h := List.all_eq_true.mp cand_facts vk hmem
    have h2 : (!is_modifier_key vk) = true ∧ (vk != 0x1B) = true ∧
        (common_key_name vk).isSome = true := by
      simpa [Bool.and_assoc] using h
    refine ⟨by simpa using h2.1, by simpa using h2.2.1, h2.2.2⟩
  refine ⟨?_, ?_, ?_, ?_⟩
  · intro sc osn pressed st
    unfold poll_hotkey_capture
    by_cases hA : st.captureActive = true
    · simp only [hA, Bool.not_true, Bool.false_eq_true, if_false]
      by_cases hM : (pressed 0x11 || pressed 0xA2 || pressed 0xA3 ||
          (pressed 0x12 || pressed 0xA4 || pressed 0xA5) ||
          (pressed 0x10 || pressed 0xA0 || pressed 0xA1) ||
          (pressed 0x5B || pressed 0x5C)) = true
      · simp only [hM, Bool.not_true, Bool.false_eq_true, if_false]
        rcases hf : pollFind pressed HOTKEY_CANDIDATES with _ | vk
        · simp [anyModPressed, hM, hf]
        · simp [anyModPressed, hM, hf, hA]
      · simp only [Bool.not_eq_true] at hM
        simp [anyModPressed, hM]
    · simp only [Bool.not_eq_true] at hA
      simp [hA]
  · intro sc osn pressed st s hs
    rcases poll_outcome sc osn pressed st with ⟨h1, _⟩ | ⟨_, _, t, h1, _, hne, _⟩
    · rw [h1] at hs
      cases hs
    · rw [h1] at hs
      cases hs
      exact hne
  · intro sc osn pressed st vk hA hbits hM hf htab
    obtain ⟨hmem, hpr⟩ := pollFind_mem pressed HOTKEY_CANDIDATES vk hf
    obtain ⟨hm, hesc, hcn⟩ := hvk_facts vk hmem
    obtain ⟨n, hn⟩ := Option.isSome_iff_exists.mp hcn
    have hv : vk_to_name sc osn vk = some n := by
      unfold vk_to_name
      rw [hn]
    obtain ⟨hb1, hb2, hb3, hb4⟩ := hbits
    have hmods : (st.capCtrl || st.capAlt || st.capShift || st.capWin) = true := by
      rw [hb1, hb2, hb3, hb4]
      exact hM
    rw [hpoll_eq sc osn pressed st vk hA hM hf,
      hook_finalize_eq sc osn st vk n hA hm hesc htab hmods hv]
    refine ⟨?_, rfl, rfl⟩
    simp [hv, winModsStr, hb1, hb2, hb3, hb4]
  · intro sc osn pressed st hA hM hf
    have hv : vk_to_name sc osn 0x09 = some "Tab" := rfl
    rw [hpoll_eq sc osn pressed st 0x09 hA hM hf]
    refine ⟨by simp [hv], ?_, ?_⟩
    · exact (hook_tab_keeps sc osn st KMsg.down).1
    · exact (hook_tab_keeps sc osn st KMsg.down).2

/-- Claim C6, witness: on a snapshot holding Ctrl and Q during an
active session, the poll stores exactly the outcome the hook stores for
the Q key-down, and both deactivate the session. -/
theorem c6_witness :
    (poll_hotkey_capture sc1 osnN prCtrlQ hsCtrl).2.captured =
      (keyboard_hook_proc sc1 osnN hsCtrl 0x51 KMsg.down).captured ∧
    (poll_hotkey_capture sc1 osnN prCtrlQ hsCtrl).2.captureActive = false ∧
    (keyboard_hook_proc sc1 osnN hsCtrl 0x51 KMsg.down).captureActive = false :=
  c6_amended.2.2.1 sc1 osnN prCtrlQ hsCtrl 0x51 (by decide)
    ⟨by decide, by decide, by decide, by decide⟩ (by decide) (by decide) (by decide)

/-! ## Claim C9 -/

/-- Claim C9: every step of each capture backend preserves the delivery
protocol — a stored outcome is the empty cancellation marker or a
nonempty mnemonic starting with a modifier text; Escape stores exactly
the empty string on both backends; and the consumer returns immediately
on the empty string, leaving the window text, the hotkey manager and
the saved configuration untouched. -/
theorem c9_cancel_empty_protocol :
    (∀ (sc : Nat → Nat) (osn : Nat → Option String) (st : HookSt) (vk : Nat) (msg : KMsg),
      GoodOutcome st.captured →
      GoodOutcome (keyboard_hook_proc sc osn st vk msg).captured) ∧
    (∀ (st : MacSt) (k : Nat) (f : MacFlags), GoodOutcome st.captured →
      GoodOutcome (mac_event_tap_callback st k f).captured) ∧
    (∀ (sc : Nat → Nat) (osn : Nat → Option String) (pressed : Nat → Bool) (st : HookSt),
      GoodOutcome st.captured →
      GoodOutcome (poll_hotkey_capture sc osn pressed st).2.captured) ∧
    (∀ (sc : Nat → Nat) (osn : Nat → Option String) (st : HookSt),
      st.captureActive = true →
      (keyboard_hook_proc sc osn st 0x1B KMsg.down).captured = some "") ∧
    (∀ (st : MacSt) (f : MacFlags), st.captureActive = true →
      (mac_event_tap_callback st 53 f).captured = some "") ∧
    (∀ (hid : HotKey → Nat) (regOk unregOk : HotKey → Bool) (st : AppSt),
      apply_captured_hotkey hid regOk unregOk st "" = st) := by
  refine ⟨?_, ?_, ?_, ?_, ?_, ?_⟩
  · intro sc osn st vk msg hg
    rcases hook_outcome sc osn st vk msg with ⟨h1, _⟩ | ⟨_, _, h1 | ⟨s, h1, hne, hmp⟩⟩
    · rw [h1]
      exact hg
    · intro s hs
      rw [h1] at hs
      cases hs
      exact Or.inl rfl
    · intro t ht
      rw [h1] at ht
      cases ht
      exact Or.inr ⟨hne, hmp⟩
  · intro st k f hg
    rcases mac_outcome st k f with ⟨h1, _⟩ | ⟨_, _, h1 | ⟨s, h1, hne, hmp⟩⟩
    · rw [h1]
      exact hg
    · intro s hs
      rw [h1] at hs
      cases hs
      exact Or.inl rfl
    · intro t ht
      rw [h1] at ht
      cases ht
      exact Or.inr ⟨hne, hmp⟩
  · intro sc osn pressed st hg
    rcases poll_outcome sc osn pressed st with ⟨_, h1⟩ | ⟨_, _, s, _, h1, hne, hmp⟩
    · rw [h1]
      exact hg
    · intro t ht
      rw [h1] at ht
      cases ht
      exact Or.inr ⟨hne, hmp⟩
  · intro sc osn st h
    rw [hook_escape_eq sc osn st h]
  · intro st f h
    rw [mac_escape_eq st f h]
  · intro hid regOk unregOk st
    unfold apply_captured_hotkey
    rw [if_pos rfl]

/-- Claim C9, witness: the protocol instantiated on a state with no
stored outcome and a Q key-down with Ctrl held, and the consumer on the
empty string. -/
theorem c9_witness :
    GoodOutcome (keyboard_hook_proc sc1 osnN hsCtrl 0x51 KMsg.down).captured ∧
    apply_captured_hotkey hid0 allOk allOk ⟨"Alt+Q", mgr0, "Alt+Q"⟩ "" =
      ⟨"Alt+Q", mgr0, "Alt+Q"⟩ :=
  ⟨c9_cancel_empty_protocol.1 sc1 osnN hsCtrl 0x51 KMsg.down (fun s hs => by cases hs),
   c9_cancel_empty_protocol.2.2.2.2.2 hid0 allOk allOk ⟨"Alt+Q", mgr0, "Alt+Q"⟩⟩

/-! ## Claim C10 -/

/-- Claim C10: every step that changes the stored outcome also clears
the capture-active flag in the same invocation, on all three backends;
while the flag is clear no raw key event changes the stored outcome or
the held-modifier flags, so whole event sequences leave the outcome
frozen, and the poll is a no-op; only `start_hotkey_capture`
re-activates the session, clearing the outcome. -/
theorem c10_finalize_clears_flag :
    (∀ (sc : Nat → Nat) (osn : Nat → Option String) (st : HookSt) (vk : Nat) (msg : KMsg),
      (keyboard_hook_proc sc osn st vk msg).captured ≠ st.captured →
      (keyboard_hook_proc sc osn st vk msg).captureActive = false) ∧
    (∀ (sc : Nat → Nat) (osn : Nat → Option String) (st : HookSt) (vk : Nat) (msg : KMsg),
      st.captureActive = false →
      (keyboard_hook_proc sc osn st vk msg).captured = st.captured ∧
      (keyboard_hook_proc sc osn st vk msg).captureActive = false ∧
      (keyboard_hook_proc sc osn st vk msg).capCtrl = st.capCtrl ∧
      (keyboard_hook_proc sc osn st vk msg).capAlt = st.capAlt ∧
      (keyboard_hook_proc sc osn st vk msg).capShift = st.capShift ∧
      (keyboard_hook_proc sc osn st vk msg).capWin = st.capWin) ∧
    (∀ (sc : Nat → Nat) (osn : Nat → Option String) (evs : List (Nat × KMsg)) (st : HookSt),
      st.captureActive = false →
      (evs.foldl (fun s e => keyboard_hook_proc sc osn s e.1 e.2) st).captured = st.captured) ∧
    (∀ (st : MacSt) (k : Nat) (f : MacFlags),
      (mac_event_tap_callback st k f).captured ≠ st.captured →
      (mac_event_tap_callback st k f).captureActive = false) ∧
    (∀ (st : MacSt) (k : Nat) (f : MacFlags), st.captureActive = false →
      (mac_event_tap_callback st k f).captured = st.captured ∧
      (mac_event_tap_callback st k f).captureActive = false) ∧
    (∀ (sc : Nat → Nat) (osn : Nat → Option String) (pressed : Nat → Bool) (st : HookSt),
      (poll_hotkey_capture sc osn pressed st).2.captured ≠ st.captured →
      (poll_hotkey_capture sc osn pressed st).2.captureActive = false) ∧
    (∀ (sc : Nat → Nat) (osn : Nat → Option String) (pressed : Nat → Bool) (st : HookSt),
      st.captureActive = false → poll_hotkey_capture sc osn pressed st = (none, st)) ∧
    (∀ st : HookSt, (start_hotkey_capture st).captureActive = true ∧
      (start_hotkey_capture st).captured = none ∧
      (stop_hotkey_capture st).captured = st.captured ∧
      (get_captured_hotkey st).2.captureActive = st.captureActive) := by
  refine ⟨?_, ?_, ?_, ?_, ?_, ?_, poll_inactive, fun st => ⟨rfl, rfl, rfl, rfl⟩⟩
  · intro sc osn st vk msg h
    rcases hook_outcome sc osn st vk msg with ⟨h1, _⟩ | ⟨_, h2, _⟩
    · exact absurd h1 h
    · exact h2
  · exact fun sc osn st vk msg h => hook_inactive_frozen sc osn st vk msg h
  · exact fun sc osn evs st h => (hook_fold_frozen sc osn evs st h).1
  · intro st k f h
    rcases mac_outcome st k f with ⟨h1, _⟩ | ⟨_, h2, _⟩
    · exact absurd h1 h
    · exact h2
  · exact fun st k f h => mac_inactive_frozen st k f h
  · intro sc osn pressed st h
    rcases poll_outcome sc osn pressed st with ⟨_, h1⟩ | ⟨_, h2, _⟩
    · rw [h1] at h
      exact absurd rfl h
    · exact h2

/-- Claim C10, witness: a finalized outcome survives a later key-down
and a later Escape unchanged while the session is inactive. -/
theorem c10_witness :
    (([(0x51, KMsg.down), (0x1B, KMsg.down)] : List (Nat × KMsg)).foldl
      (fun s e => keyboard_hook_proc sc1 osnN s e.1 e.2)
      ⟨false, false, false, false, false, some "Ctrl+Q", false, false⟩).captured =
      some "Ctrl+Q" :=
  c10_finalize_clears_flag.2.2.1 sc1 osnN [(0x51, KMsg.down), (0x1B, KMsg.down)]
    ⟨false, false, false, false, false, some "Ctrl+Q", false, false⟩ rfl

end NanoTrans
